import Mathlib

/-!
# JamTaba standalone controller: input-route reconciliation and plugin scanner

A shallow embedding of `Client/src/Standalone/StandAloneMainController.cpp`.

* C++ `int` values are unbounded `Int`; channel and device numbers are far from the
  32-bit limits, so no wrap-around is modelled.
* Track indices are `Nat`; `getInputTrack` yields no track for an index past the end.
* `QString` / `QByteArray` values are `List Char`.
* The controller and the plugin finder are records passed from call to call. Calls made
  to collaborators (window, ninjam service, ninjam controller) and emitted Qt signals
  are appended, in call order, to a log carried by the record.
* `QList::at(1)` past the end of the list makes the slot return `none`.
* `QTextStream::readLine` cuts at line feeds and drops a carriage return that ends a line.
-/

namespace JamTaba

/-! ## Channel ranges and track routes -/

/-- Modelled from the spec: the `Audio::ChannelRange` value type (its header is not part
of the source file): `{firstChannel: int, channelCount: int}`. -/
structure ChannelRange where
  firstChannel : Int
  channels : Int
deriving DecidableEq, Repr

namespace ChannelRange

/-- Accessor `getFirstChannel()`. -/
def getFirstChannel (r : ChannelRange) : Int := r.firstChannel

/-- Accessor `getChannels()`. -/
def getChannels (r : ChannelRange) : Int := r.channels

/-- Modelled from the spec: `lastChannel = firstChannel + channelCount - 1`. -/
def getLastChannel (r : ChannelRange) : Int := r.firstChannel + r.channels - 1

/-- Modelled from the spec: `isMono = channelCount == 1`. -/
def isMono (r : ChannelRange) : Bool := decide (r.channels = 1)

end ChannelRange

/-- Modelled from the spec: `InputTrackRoute`, the tagged variant
`{NoInput, Audio{range}, Midi{deviceIndex, channel (-1 = all)}}` held by a local input track. -/
inductive InputTrackRoute where
  | NoInput
  | Audio (range : ChannelRange)
  | Midi (deviceIndex : Int) (channel : Int)
deriving DecidableEq, Repr

/-- Modelled from the spec: the part of `Audio::LocalInputAudioNode` the controller touches:
the route, the group channel the track uploads on, and the global first input index
stored by `setGlobalFirstInputIndex`. -/
structure LocalInputAudioNode where
  route : InputTrackRoute
  groupChannelIndex : Int
  globalFirstInputIndex : Int
deriving DecidableEq, Repr

namespace LocalInputAudioNode

/-- Modelled from the spec: `setAudioInputSelection(first, count)` makes the route `Audio{first, count}`. -/
def setAudioInputSelection (t : LocalInputAudioNode) (firstChannelIndex channelCount : Int) :
    LocalInputAudioNode :=
  { t with route := InputTrackRoute.Audio ⟨firstChannelIndex, channelCount⟩ }

/-- Modelled from the spec: `setMidiInputSelection(device, channel)` makes the route `Midi{device, channel}`. -/
def setMidiInputSelection (t : LocalInputAudioNode) (midiDevice midiChannel : Int) :
    LocalInputAudioNode :=
  { t with route := InputTrackRoute.Midi midiDevice midiChannel }

/-- Modelled from the spec: `setToNoInput()` makes the route `NoInput`. -/
def setToNoInput (t : LocalInputAudioNode) : LocalInputAudioNode :=
  { t with route := InputTrackRoute.NoInput }

/-- Setter `setGlobalFirstInputIndex(i)`; it does not touch the route. -/
def setGlobalFirstInputIndex (t : LocalInputAudioNode) (i : Int) : LocalInputAudioNode :=
  { t with globalFirstInputIndex := i }

/-- Accessor `getGroupChannelIndex()`. -/
def getGroupChannelIndex (t : LocalInputAudioNode) : Int := t.groupChannelIndex

end LocalInputAudioNode

/-- The MIDI driver as the controller sees it: the three queries `updateInputTracksRange`
makes. The driver classes are not part of the source file, so the answers are parameters. -/
structure MidiDriver where
  getMaxInputDevices : Int
  deviceIsGloballyEnabled : Int → Bool
  getFirstGloballyEnableInputDevice : Int

/-- A call made to a collaborator. The first component of every constructor is the local
track index of the mutator that made the call; `scheduleEncoderChangeForChannel` itself
is passed only the group channel index (second component). -/
inductive Effect where
  | refreshTrackInputSelection (localChannelIndex : Nat)
  | sendAudioIntervalPart (localChannelIndex : Nat)
  | scheduleEncoderChangeForChannel (localChannelIndex : Nat) (groupChannelIndex : Int)
deriving DecidableEq, Repr

/-- The local track on whose behalf a call was made. -/
def Effect.track : Effect → Nat
  | Effect.refreshTrackInputSelection i => i
  | Effect.sendAudioIntervalPart i => i
  | Effect.scheduleEncoderChangeForChannel i _ => i

/-- The state of `StandaloneMainController` that the route mutators read and write.
`window`, `ninjamController` say whether the pointer is non-null; `playingInNinjamRoom`
is the answer of `isPlayingInNinjamRoom()`; `intervalsToUpload` lists the keys of the
map of pending outgoing intervals; `selectedInputs` is `audioDriver->getSelectedInputs()`. -/
structure StandaloneMainController where
  inputTracks : List LocalInputAudioNode
  selectedInputs : ChannelRange
  midiDriver : MidiDriver
  window : Bool
  playingInNinjamRoom : Bool
  ninjamController : Bool
  intervalsToUpload : List Nat
  effects : List Effect

namespace StandaloneMainController

/-- Modelled from the spec: `getInputTrack(index)` of the base controller: the track at
that index, or null when there is none. -/
def getInputTrack (s : StandaloneMainController) (localChannelIndex : Nat) :
    Option LocalInputAudioNode :=
  s.inputTracks[localChannelIndex]?

/-- Write back the track object reached through the pointer `getInputTrack` returned. -/
def putInputTrack (s : StandaloneMainController) (localChannelIndex : Nat)
    (t : LocalInputAudioNode) : StandaloneMainController :=
  { s with inputTracks := s.inputTracks.set localChannelIndex t }

/-- Append one collaborator call to the log. -/
def call (s : StandaloneMainController) (e : Effect) : StandaloneMainController :=
  { s with effects := s.effects ++ [e] }

/-- Source function `StandaloneMainController::inputIndexIsValid`. -/
def inputIndexIsValid (s : StandaloneMainController) (inputIndex : Int) : Bool :=
  let globalInputsRange := s.selectedInputs
  decide (inputIndex ≥ globalInputsRange.getFirstChannel)
    && decide (inputIndex ≤ globalInputsRange.getLastChannel)

/-- Source function `StandaloneMainController::setInputTrackToMono`. -/
def setInputTrackToMono (s : StandaloneMainController) (localChannelIndex : Nat)
    (inputIndexInAudioDevice : Int) : StandaloneMainController :=
  match s.getInputTrack localChannelIndex with
  | none => s
  | some inputTrack =>
    let inputIndexInAudioDevice :=
      if !s.inputIndexIsValid inputIndexInAudioDevice then s.selectedInputs.getFirstChannel
      else inputIndexInAudioDevice
    let inputTrack := inputTrack.setAudioInputSelection inputIndexInAudioDevice 1
    let s1 := s.putInputTrack localChannelIndex inputTrack
    let s2 := if s1.window then s1.call (Effect.refreshTrackInputSelection localChannelIndex)
              else s1
    if s2.playingInNinjamRoom then
      if s2.ninjamController then
        s2.call (Effect.scheduleEncoderChangeForChannel localChannelIndex
          inputTrack.getGroupChannelIndex)
      else s2
    else s2

/-- Source function `StandaloneMainController::setInputTrackToMIDI`. -/
def setInputTrackToMIDI (s : StandaloneMainController) (localChannelIndex : Nat)
    (midiDevice midiChannel : Int) : StandaloneMainController :=
  match s.getInputTrack localChannelIndex with
  | none => s
  | some inputTrack =>
    let inputTrack := inputTrack.setMidiInputSelection midiDevice midiChannel
    let s1 := s.putInputTrack localChannelIndex inputTrack
    let s2 := if s1.window then s1.call (Effect.refreshTrackInputSelection localChannelIndex)
              else s1
    if s2.playingInNinjamRoom then
      if s2.ninjamController then
        s2.call (Effect.scheduleEncoderChangeForChannel localChannelIndex
          inputTrack.getGroupChannelIndex)
      else s2
    else s2

/-- Source function `StandaloneMainController::setInputTrackToNoInput`: the encoder change is scheduled
inside the `intervalsToUpload.contains` branch, after the final interval part is sent. -/
def setInputTrackToNoInput (s : StandaloneMainController) (localChannelIndex : Nat) :
    StandaloneMainController :=
  match s.getInputTrack localChannelIndex with
  | none => s
  | some inputTrack =>
    let inputTrack := inputTrack.setToNoInput
    let s1 := s.putInputTrack localChannelIndex inputTrack
    let s2 := if s1.window then s1.call (Effect.refreshTrackInputSelection localChannelIndex)
              else s1
    if s2.playingInNinjamRoom then
      if s2.intervalsToUpload.contains localChannelIndex then
        let s3 := s2.call (Effect.sendAudioIntervalPart localChannelIndex)
        if s3.ninjamController then
          s3.call (Effect.scheduleEncoderChangeForChannel localChannelIndex
            inputTrack.getGroupChannelIndex)
        else s3
      else s2
    else s2

/-- Source function `StandaloneMainController::setInputTrackToStereo`. -/
def setInputTrackToStereo (s : StandaloneMainController) (localChannelIndex : Nat)
    (firstInputIndex : Int) : StandaloneMainController :=
  match s.getInputTrack localChannelIndex with
  | none => s
  | some inputTrack =>
    let firstInputIndex :=
      if !s.inputIndexIsValid firstInputIndex then s.selectedInputs.getFirstChannel
      else firstInputIndex
    let inputTrack := inputTrack.setAudioInputSelection firstInputIndex 2
    let s1 := s.putInputTrack localChannelIndex inputTrack
    let s2 := if s1.window then s1.call (Effect.refreshTrackInputSelection localChannelIndex)
              else s1
    if s2.playingInNinjamRoom then
      if s2.ninjamController then
        s2.call (Effect.scheduleEncoderChangeForChannel localChannelIndex
          inputTrack.getGroupChannelIndex)
      else s2
    else s2

/-- The body of the `for` loop of `updateInputTracksRange` for one `trackIndex`;
`globalInputRange` is the range read once before the loop. -/
def updateInputTrackRange (globalInputRange : ChannelRange) (s : StandaloneMainController)
    (trackIndex : Nat) : StandaloneMainController :=
  match s.getInputTrack trackIndex with
  | none => s
  | some inputTrack =>
    match inputTrack.route with
    | InputTrackRoute.NoInput => s
    | InputTrackRoute.Audio inputTrackRange =>
      let s1 := s.putInputTrack trackIndex
        (inputTrack.setGlobalFirstInputIndex globalInputRange.getFirstChannel)
      let s2 :=
        if globalInputRange.getChannels < inputTrackRange.getChannels then
          if globalInputRange.isMono then
            s1.setInputTrackToMono trackIndex globalInputRange.getFirstChannel
          else
            s1.setInputTrackToNoInput trackIndex
        else s1
      let firstChannel := inputTrackRange.getFirstChannel
      let globalFirstChannel := globalInputRange.getFirstChannel
      if firstChannel < globalFirstChannel
          ∨ inputTrackRange.getLastChannel > globalInputRange.getLastChannel then
        if globalInputRange.isMono then
          s2.setInputTrackToMono trackIndex globalInputRange.getFirstChannel
        else if globalInputRange.getChannels ≥ 2 then
          s2.setInputTrackToStereo trackIndex globalInputRange.getFirstChannel
        else s2
      else s2
    | InputTrackRoute.Midi selectedDevice _ =>
      let deviceIsValid := decide (selectedDevice ≥ 0)
        && decide (selectedDevice < s.midiDriver.getMaxInputDevices)
        && s.midiDriver.deviceIsGloballyEnabled selectedDevice
      if !deviceIsValid then
        let firstAvailableDevice := s.midiDriver.getFirstGloballyEnableInputDevice
        if firstAvailableDevice ≥ 0 then
          s.setInputTrackToMIDI trackIndex firstAvailableDevice (-1)
        else
          s.setInputTrackToNoInput trackIndex
      else s

/-- Source function `StandaloneMainController::updateInputTracksRange`: the loop visits the indices
`0 .. inputTracks.size() - 1` in order (no mutator changes the number of tracks). -/
def updateInputTracksRange (s : StandaloneMainController) : StandaloneMainController :=
  let globalInputRange := s.selectedInputs
  (List.range s.inputTracks.length).foldl (updateInputTrackRange globalInputRange) s

/-- The route of the track at an index, when there is one. -/
def routeAt (s : StandaloneMainController) (i : Nat) : Option InputTrackRoute :=
  (s.getInputTrack i).map (fun t => t.route)

/-- The logged calls made on behalf of one local track. -/
def effectsFor (s : StandaloneMainController) (i : Nat) : List Effect :=
  s.effects.filter (fun e => decide (e.track = i))

end StandaloneMainController

/-! ## Out-of-process plugin scanner -/

/-- The line feed character, the line terminator `QTextStream::readLine` looks for. -/
def lineFeed : Char := Char.ofNat 10

/-- The carriage return character, removed by `readLine` when it ends a line. -/
def carriageReturn : Char := Char.ofNat 13

/-- The pieces `QTextStream::readLine()` walks through until `atEnd()`: the text is cut
after each line feed (which is not part of the piece); a last piece without a line feed
is returned as a line too, unless it is empty. -/
def cutLines : List Char → List (List Char)
  | [] => []
  | c :: rest =>
    if c = lineFeed then [] :: cutLines rest
    else
      match cutLines rest with
      | [] => [[c]]
      | l :: ls => (c :: l) :: ls

/-- A carriage return right before the line feed, or at the very end of the data, is
not part of the line `readLine` returns. -/
def dropCarriageReturn (line : List Char) : List Char :=
  if line.getLast? = some carriageReturn then line.dropLast else line

/-- The lines the `while (!stream.atEnd()) stream.readLine()` loop sees for one block of data. -/
def readAllLines (readedData : List Char) : List (List Char) :=
  (cutLines readedData).map dropCarriageReturn

/-- Qt function `QString::startsWith`. -/
def startsWith (s start : List Char) : Bool := start.isPrefixOf s

/-- Qt function `QString::split(": ")` with the default `KeepEmptyParts`: the pieces between the
non-overlapping occurrences of colon-space, found left to right. -/
def splitColonSpace : List Char → List (List Char)
  | [] => [[]]
  | [c] => [[c]]
  | c :: d :: rest =>
    if c = ':' ∧ d = ' ' then [] :: splitColonSpace rest
    else
      match splitColonSpace (d :: rest) with
      | [] => [[c]]
      | p :: ps => (c :: p) :: ps

/-- The text tested by `readedLine.startsWith("JT-Scanner-Scanning:")`. -/
def scanningTag : List Char := "JT-Scanner-Scanning:".toList

/-- The text tested by `readedLine.startsWith("JT-Scanner-Scan-Finished")` (no colon). -/
def finishedTag : List Char := "JT-Scanner-Scan-Finished".toList

/-- A Qt signal emitted by the plugin finder. -/
inductive ScanSignal where
  | scanFinished (exitingWithoutError : Bool)
  | badPluginDetected (pluginPath : List Char)
  | pluginScanStarted (pluginPath : List Char)
  | pluginScanFinished (name group pluginPath : List Char)
deriving DecidableEq, Repr

/-- Qt enumeration `QProcess::ExitStatus`. -/
inductive ExitStatus where
  | NormalExit
  | CrashExit
deriving DecidableEq, Repr

/-- The state of `StandalonePluginFinder`: the member `lastScannedPlugin` and the log of
signals emitted so far, oldest first. -/
structure StandalonePluginFinder where
  lastScannedPlugin : List Char
  emitted : List ScanSignal
deriving DecidableEq, Repr

namespace StandalonePluginFinder

/-- Emit one signal. -/
def emit (s : StandalonePluginFinder) (sig : ScanSignal) : StandalonePluginFinder :=
  { s with emitted := s.emitted ++ [sig] }

/-- Source function `StandalonePluginFinder::handleProcessError`. -/
def handleProcessError (s : StandalonePluginFinder) (lastScannedPlugin : List Char) :
    StandalonePluginFinder :=
  if !lastScannedPlugin.isEmpty then s.emit (ScanSignal.badPluginDetected lastScannedPlugin)
  else s

/-- Source function `StandalonePluginFinder::on_processFinished`, given `scanProcess.exitStatus()`. -/
def on_processFinished (exitStatus : ExitStatus) (s : StandalonePluginFinder) :
    StandalonePluginFinder :=
  let exitingWithoutError := decide (exitStatus = ExitStatus.NormalExit)
  let s1 := s.emit (ScanSignal.scanFinished exitingWithoutError)
  let lastScanned := s1.lastScannedPlugin
  let s2 := { s1 with lastScannedPlugin := [] }
  if !exitingWithoutError then s2.handleProcessError lastScanned else s2

/-- The body of the `while` loop of `on_processStandardOutputReady` for one line.
`getPluginNameFromPath` belongs to `Audio::PluginDescriptor` and is a parameter.
The result is `none` when `readedLine.split(": ").at(1)` reads past the end of the list. -/
def processLine (getPluginNameFromPath : List Char → List Char) (s : StandalonePluginFinder)
    (readedLine : List Char) : Option StandalonePluginFinder :=
  if !readedLine.isEmpty then
    let startScanning := startsWith readedLine scanningTag
    let finishedScanning := startsWith readedLine finishedTag
    if startScanning || finishedScanning then
      match (splitColonSpace readedLine)[1]? with
      | none => none
      | some pluginPath =>
        if startScanning then
          some (({ s with lastScannedPlugin := pluginPath } : StandalonePluginFinder).emit
            (ScanSignal.pluginScanStarted pluginPath))
        else
          let pluginName := getPluginNameFromPath pluginPath
          some (s.emit (ScanSignal.pluginScanFinished pluginName "VST".toList pluginPath))
    else some s
  else some s

/-- The `while` loop of `on_processStandardOutputReady` over the lines read. -/
def processLines (getPluginNameFromPath : List Char → List Char) :
    StandalonePluginFinder → List (List Char) → Option StandalonePluginFinder
  | s, [] => some s
  | s, readedLine :: more =>
    match processLine getPluginNameFromPath s readedLine with
    | none => none
    | some s1 => processLines getPluginNameFromPath s1 more

/-- Source function `StandalonePluginFinder::on_processStandardOutputReady`, given the bytes that
`scanProcess.readAll()` returns for this call. -/
def on_processStandardOutputReady (getPluginNameFromPath : List Char → List Char)
    (readedData : List Char) (s : StandalonePluginFinder) : Option StandalonePluginFinder :=
  processLines getPluginNameFromPath s (readAllLines readedData)

/-- The slot `on_processStandardOutputReady` run once for each block of output, in order. -/
def receive (getPluginNameFromPath : List Char → List Char) :
    StandalonePluginFinder → List (List Char) → Option StandalonePluginFinder
  | s, [] => some s
  | s, readedData :: more =>
    match on_processStandardOutputReady getPluginNameFromPath readedData s with
    | none => none
    | some s1 => receive getPluginNameFromPath s1 more

/-- The bad-plugin reports among the emitted signals. -/
def badPlugins (s : StandalonePluginFinder) : List (List Char) :=
  s.emitted.filterMap (fun sig =>
    match sig with
    | ScanSignal.badPluginDetected p => some p
    | _ => none)

end StandalonePluginFinder

/-! ## Auxiliary predicates used to state the results -/

namespace StandaloneMainController

/-- The state `s2` differs from `s` only in the tracks whose index is in `l` and in calls
logged after those of `s` on behalf of tracks in `l`. -/
def Touches (l : List Nat) (s s2 : StandaloneMainController) : Prop :=
  ∃ (tracks : List LocalInputAudioNode) (es : List Effect),
    s2 = { s with inputTracks := tracks, effects := s.effects ++ es } ∧
    tracks.length = s.inputTracks.length ∧
    (∀ j, j ∉ l → tracks[j]? = s.inputTracks[j]?) ∧
    (∀ e ∈ es, e.track ∈ l)

/-- A route is valid for a global input range and a MIDI driver: `NoInput`, or an audio
range inside the global range, or a MIDI device index in `[0, maxInputDevices)` that is
globally enabled. -/
def validRoute (g : ChannelRange) (md : MidiDriver) : InputTrackRoute → Bool
  | InputTrackRoute.NoInput => true
  | InputTrackRoute.Audio r =>
    decide (g.getFirstChannel ≤ r.getFirstChannel) && decide (r.getLastChannel ≤ g.getLastChannel)
  | InputTrackRoute.Midi d _ =>
    decide (0 ≤ d) && decide (d < md.getMaxInputDevices) && md.deviceIsGloballyEnabled d

/-- The route is not an audio route without channels: an audio range has at least one
channel. -/
def hasAudioChannel : InputTrackRoute → Bool
  | InputTrackRoute.Audio r => decide (1 ≤ r.getChannels)
  | _ => true

/-- A driver with two input devices of which only device 1 is globally enabled. -/
def sampleMidiDriver : MidiDriver :=
  { getMaxInputDevices := 2
    deviceIsGloballyEnabled := fun d => decide (d = 1)
    getFirstGloballyEnableInputDevice := 1 }

/-- A controller with a window, playing in a ninjam room, with no pending interval. -/
def sampleController (tracks : List LocalInputAudioNode) (g : ChannelRange) :
    StandaloneMainController :=
  { inputTracks := tracks
    selectedInputs := g
    midiDriver := sampleMidiDriver
    window := true
    playingInNinjamRoom := true
    ninjamController := true
    intervalsToUpload := []
    effects := [] }

/-- The sample controller before a main window was set (`window` is null). -/
def windowlessController (tracks : List LocalInputAudioNode) (g : ChannelRange) :
    StandaloneMainController :=
  { sampleController tracks g with window := false }

end StandaloneMainController

/-- Whether the text contains the separator colon-space. -/
def containsColonSpace : List Char → Bool
  | [] => false
  | [_] => false
  | c :: d :: rest => (decide (c = ':') && decide (d = ' ')) || containsColonSpace (d :: rest)

/-- A path as the worker prints it: not empty, without the separator colon-space and
without a line feed or carriage return. -/
def plainPath (p : List Char) : Bool :=
  !p.isEmpty && !containsColonSpace p && !p.contains lineFeed && !p.contains carriageReturn

/-- A complete line of worker output of one of the two forms of the protocol; `crlf`
says whether the line ends with carriage return and line feed or with a line feed only. -/
inductive WorkerLine where
  | scanning (path : List Char) (crlf : Bool)
  | finished (path : List Char) (crlf : Bool)
deriving DecidableEq, Repr

namespace WorkerLine

/-- The path a line carries. -/
def path : WorkerLine → List Char
  | scanning p _ => p
  | finished p _ => p

/-- The line without its terminator: `JT-Scanner-Scanning: P` or
`JT-Scanner-Scan-Finished: P`. -/
def body : WorkerLine → List Char
  | scanning p _ => scanningTag ++ ' ' :: p
  | finished p _ => finishedTag ++ ':' :: ' ' :: p

/-- The terminator of the line. -/
def terminator : WorkerLine → List Char
  | scanning _ e => if e then [carriageReturn, lineFeed] else [lineFeed]
  | finished _ e => if e then [carriageReturn, lineFeed] else [lineFeed]

/-- The characters of the line as the worker writes it. -/
def text (l : WorkerLine) : List Char := l.body ++ l.terminator

end WorkerLine

/-- The characters of a block of complete lines. -/
def blockText : List WorkerLine → List Char
  | [] => []
  | l :: ls => l.text ++ blockText ls

/-- The path of a `JT-Scanner-Scanning:` line; nothing for a finished line. -/
def scanningPath : WorkerLine → Option (List Char)
  | WorkerLine.scanning p _ => some p
  | WorkerLine.finished _ _ => none

/-- The path of the last `JT-Scanner-Scanning:` line of a sequence of lines, if any. -/
def lastScanning (ls : List WorkerLine) : Option (List Char) :=
  (ls.filterMap scanningPath).getLast?

/-- The line starts with one of the two tags the scanner looks for. -/
def tagged (line : List Char) : Bool :=
  startsWith line scanningTag || startsWith line finishedTag

/-- The path carried by the last of the lines that starts with `JT-Scanner-Scanning:`,
namely the piece after its first colon-space; the given path when no line starts so
(or when that line has no colon-space). -/
def lastAnnounced (previous : List Char) (lines : List (List Char)) : List Char :=
  match (lines.filter (fun line => startsWith line scanningTag)).getLast? with
  | none => previous
  | some line => (splitColonSpace line)[1]?.getD previous

/-- All lines the slot reads when the output arrives in the given blocks. -/
def receivedLines : List (List Char) → List (List Char)
  | [] => []
  | readedData :: more => readAllLines readedData ++ receivedLines more

/-! ## Plugin catalog -/

/-- Modelled from the spec: `Audio::PluginDescriptor`, the record `{name, category, path}`
built by `Audio::PluginDescriptor(name, group, path)`. -/
structure PluginDescriptor where
  name : List Char
  group : List Char
  path : List Char
deriving DecidableEq, Repr

/-- The plugin part of the state of `StandaloneMainController`: the member
`pluginsDescriptors` and, oldest first, the paths passed to `settings.addVstPlugin`. -/
structure PluginCatalog where
  pluginsDescriptors : List PluginDescriptor
  addedVstPlugins : List (List Char)
deriving DecidableEq, Repr

namespace StandaloneMainController

/-- Source function `StandaloneMainController::on_VSTPluginFounded`. -/
def on_VSTPluginFounded (s : PluginCatalog) (name group path : List Char) : PluginCatalog :=
  { pluginsDescriptors := s.pluginsDescriptors ++ [PluginDescriptor.mk name group path]
    addedVstPlugins := s.addedVstPlugins ++ [path] }

/-- The descriptors of the catalog that carry the given path. -/
def descriptorsWithPath (s : PluginCatalog) (path : List Char) : List PluginDescriptor :=
  s.pluginsDescriptors.filter (fun d => decide (d.path = path))

/-- The encoder changes logged on behalf of a local track. -/
def encoderChangesFor (s : StandaloneMainController) (i : Nat) : List Effect :=
  (s.effectsFor i).filter (fun e =>
    match e with
    | Effect.scheduleEncoderChangeForChannel _ _ => true
    | _ => false)

end StandaloneMainController

/-! ## Results: route mutators -/

namespace StandaloneMainController

theorem Touches.refl (l : List Nat) (s : StandaloneMainController) : Touches l s s :=
  ⟨s.inputTracks, [], by simp, rfl, fun _ _ => rfl, by simp⟩

theorem Touches.trans {l1 l2 : List Nat} {s s2 s3 : StandaloneMainController}
    (h1 : Touches l1 s s2) (h2 : Touches l2 s2 s3) : Touches (l1 ++ l2) s s3 := by
  obtain ⟨tr1, es1, rfl, hl1, hf1, he1⟩ := h1
  obtain ⟨tr2, es2, rfl, hl2, hf2, he2⟩ := h2
  refine ⟨tr2, es1 ++ es2, by simp, ?_, ?_, ?_⟩
  · simpa using hl2.trans hl1
  · intro j hj
    simp only [List.mem_append, not_or] at hj
    rw [hf2 j hj.2]
    exact hf1 j hj.1
  · intro e he
    simp only [List.mem_append] at he ⊢
    rcases he with he | he
    · exact Or.inl (he1 e he)
    · exact Or.inr (he2 e he)

theorem Touches.mono {l l2 : List Nat} {s s2 : StandaloneMainController}
    (h : Touches l s s2) (hsub : ∀ j ∈ l, j ∈ l2) : Touches l2 s s2 := by
  obtain ⟨tr, es, rfl, hl, hf, he⟩ := h
  exact ⟨tr, es, rfl, hl, fun j hj => hf j (fun hm => hj (hsub j hm)),
    fun e hm => hsub _ (he e hm)⟩

theorem Touches.same {i : Nat} {s s2 s3 : StandaloneMainController}
    (h1 : Touches [i] s s2) (h2 : Touches [i] s2 s3) : Touches [i] s s3 :=
  (h1.trans h2).mono (by simp)

theorem Touches.getInputTrack {l : List Nat} {s s2 : StandaloneMainController}
    (h : Touches l s s2) {i : Nat} (hi : i ∉ l) : s2.getInputTrack i = s.getInputTrack i := by
  obtain ⟨tr, es, rfl, _, hf, _⟩ := h
  exact hf i hi

theorem Touches.effectsFor {l : List Nat} {s s2 : StandaloneMainController}
    (h : Touches l s s2) {i : Nat} (hi : i ∉ l) : s2.effectsFor i = s.effectsFor i := by
  obtain ⟨tr, es, rfl, _, _, he⟩ := h
  simp only [StandaloneMainController.effectsFor, List.filter_append]
  have : es.filter (fun e => decide (e.track = i)) = [] := by
    rw [List.filter_eq_nil_iff]
    intro e hm
    simp only [decide_eq_true_eq]
    intro heq
    exact hi (heq ▸ he e hm)
  rw [this, List.append_nil]

theorem Touches.selectedInputs {l : List Nat} {s s2 : StandaloneMainController}
    (h : Touches l s s2) : s2.selectedInputs = s.selectedInputs := by
  obtain ⟨tr, es, rfl, _, _, _⟩ := h; rfl

theorem Touches.midiDriver {l : List Nat} {s s2 : StandaloneMainController}
    (h : Touches l s s2) : s2.midiDriver = s.midiDriver := by
  obtain ⟨tr, es, rfl, _, _, _⟩ := h; rfl

theorem Touches.window {l : List Nat} {s s2 : StandaloneMainController}
    (h : Touches l s s2) : s2.window = s.window := by
  obtain ⟨tr, es, rfl, _, _, _⟩ := h; rfl

theorem Touches.length {l : List Nat} {s s2 : StandaloneMainController}
    (h : Touches l s s2) : s2.inputTracks.length = s.inputTracks.length := by
  obtain ⟨tr, es, rfl, hl, _, _⟩ := h; exact hl

/-- Replacing the track at `i` and logging calls made for `i` touches only `i`. -/
theorem touches_of_eq (s : StandaloneMainController) (i : Nat) (t : LocalInputAudioNode)
    (es : List Effect) (he : ∀ e ∈ es, e.track = i) :
    Touches [i] s { s with inputTracks := s.inputTracks.set i t, effects := s.effects ++ es } := by
  refine ⟨s.inputTracks.set i t, es, rfl, by simp, ?_, ?_⟩
  · intro j hj
    have hne : i ≠ j := fun h => hj (by simp [h])
    simp [List.getElem?_set_ne hne]
  · intro e hm
    simp [he e hm]

/-- Explicit form of `setInputTrackToMono` on an existing track. -/
theorem setInputTrackToMono_eq (s : StandaloneMainController) (i : Nat) (idx : Int)
    (t : LocalInputAudioNode) (h : s.getInputTrack i = some t) :
    s.setInputTrackToMono i idx = { s with
      inputTracks := s.inputTracks.set i (t.setAudioInputSelection
        (if s.inputIndexIsValid idx then idx else s.selectedInputs.getFirstChannel) 1),
      effects := s.effects ++
        ((if s.window then [Effect.refreshTrackInputSelection i] else []) ++
         (if s.playingInNinjamRoom && s.ninjamController then
            [Effect.scheduleEncoderChangeForChannel i t.groupChannelIndex] else [])) } := by
  unfold setInputTrackToMono
  rw [h]
  cases hv : s.inputIndexIsValid idx <;>
    obtain ⟨tracks, g, md, w, p, nc, iv, ef⟩ := s <;>
    cases w <;> cases p <;> cases nc <;>
    simp [putInputTrack, call, LocalInputAudioNode.getGroupChannelIndex,
      LocalInputAudioNode.setAudioInputSelection]

/-- Explicit form of `setInputTrackToStereo` on an existing track. -/
theorem setInputTrackToStereo_eq (s : StandaloneMainController) (i : Nat) (idx : Int)
    (t : LocalInputAudioNode) (h : s.getInputTrack i = some t) :
    s.setInputTrackToStereo i idx = { s with
      inputTracks := s.inputTracks.set i (t.setAudioInputSelection
        (if s.inputIndexIsValid idx then idx else s.selectedInputs.getFirstChannel) 2),
      effects := s.effects ++
        ((if s.window then [Effect.refreshTrackInputSelection i] else []) ++
         (if s.playingInNinjamRoom && s.ninjamController then
            [Effect.scheduleEncoderChangeForChannel i t.groupChannelIndex] else [])) } := by
  unfold setInputTrackToStereo
  rw [h]
  cases hv : s.inputIndexIsValid idx <;>
    obtain ⟨tracks, g, md, w, p, nc, iv, ef⟩ := s <;>
    cases w <;> cases p <;> cases nc <;>
    simp [putInputTrack, call, LocalInputAudioNode.getGroupChannelIndex,
      LocalInputAudioNode.setAudioInputSelection]

/-- Explicit form of `setInputTrackToMIDI` on an existing track. -/
theorem setInputTrackToMIDI_eq (s : StandaloneMainController) (i : Nat) (dev ch : Int)
    (t : LocalInputAudioNode) (h : s.getInputTrack i = some t) :
    s.setInputTrackToMIDI i dev ch = { s with
      inputTracks := s.inputTracks.set i (t.setMidiInputSelection dev ch),
      effects := s.effects ++
        ((if s.window then [Effect.refreshTrackInputSelection i] else []) ++
         (if s.playingInNinjamRoom && s.ninjamController then
            [Effect.scheduleEncoderChangeForChannel i t.groupChannelIndex] else [])) } := by
  unfold setInputTrackToMIDI
  rw [h]
  obtain ⟨tracks, g, md, w, p, nc, iv, ef⟩ := s
  cases w <;> cases p <;> cases nc <;>
    simp [putInputTrack, call, LocalInputAudioNode.getGroupChannelIndex,
      LocalInputAudioNode.setMidiInputSelection]

/-- Explicit form of `setInputTrackToNoInput` on an existing track: the encoder change
is logged only together with the final interval part. -/
theorem setInputTrackToNoInput_eq (s : StandaloneMainController) (i : Nat)
    (t : LocalInputAudioNode) (h : s.getInputTrack i = some t) :
    s.setInputTrackToNoInput i = { s with
      inputTracks := s.inputTracks.set i t.setToNoInput,
      effects := s.effects ++
        ((if s.window then [Effect.refreshTrackInputSelection i] else []) ++
         (if s.playingInNinjamRoom && s.intervalsToUpload.contains i then
            Effect.sendAudioIntervalPart i ::
              (if s.ninjamController then
                [Effect.scheduleEncoderChangeForChannel i t.groupChannelIndex] else [])
          else [])) } := by
  unfold setInputTrackToNoInput
  rw [h]
  obtain ⟨tracks, g, md, w, p, nc, iv, ef⟩ := s
  cases w <;> cases p <;> cases nc <;> by_cases hc : i ∈ iv <;>
    simp [putInputTrack, call, LocalInputAudioNode.getGroupChannelIndex,
      LocalInputAudioNode.setToNoInput, hc]

theorem setInputTrackToMono_touches (s : StandaloneMainController) (i : Nat) (idx : Int) :
    Touches [i] s (s.setInputTrackToMono i idx) := by
  cases h : s.getInputTrack i with
  | none => unfold setInputTrackToMono; rw [h]; exact Touches.refl _ _
  | some t =>
    rw [setInputTrackToMono_eq s i idx t h]
    apply touches_of_eq
    intro e he
    simp only [List.mem_append] at he
    rcases he with he | he <;> split at he <;> simp at he <;> subst he <;> rfl

theorem setInputTrackToStereo_touches (s : StandaloneMainController) (i : Nat) (idx : Int) :
    Touches [i] s (s.setInputTrackToStereo i idx) := by
  cases h : s.getInputTrack i with
  | none => unfold setInputTrackToStereo; rw [h]; exact Touches.refl _ _
  | some t =>
    rw [setInputTrackToStereo_eq s i idx t h]
    apply touches_of_eq
    intro e he
    simp only [List.mem_append] at he
    rcases he with he | he <;> split at he <;> simp at he <;> subst he <;> rfl

theorem setInputTrackToMIDI_touches (s : StandaloneMainController) (i : Nat) (dev ch : Int) :
    Touches [i] s (s.setInputTrackToMIDI i dev ch) := by
  cases h : s.getInputTrack i with
  | none => unfold setInputTrackToMIDI; rw [h]; exact Touches.refl _ _
  | some t =>
    rw [setInputTrackToMIDI_eq s i dev ch t h]
    apply touches_of_eq
    intro e he
    simp only [List.mem_append] at he
    rcases he with he | he <;> split at he <;> simp at he <;> subst he <;> rfl

theorem setInputTrackToNoInput_touches (s : StandaloneMainController) (i : Nat) :
    Touches [i] s (s.setInputTrackToNoInput i) := by
  cases h : s.getInputTrack i with
  | none => unfold setInputTrackToNoInput; rw [h]; exact Touches.refl _ _
  | some t =>
    rw [setInputTrackToNoInput_eq s i t h]
    apply touches_of_eq
    intro e he
    simp only [List.mem_append] at he
    rcases he with he | he
    · split at he <;> simp at he; subst he; rfl
    · split at he
      · simp only [List.mem_cons] at he
        rcases he with he | he
        · subst he; rfl
        · split at he <;> simp at he; subst he; rfl
      · simp at he

theorem putInputTrack_touches (s : StandaloneMainController) (i : Nat) (t : LocalInputAudioNode) :
    Touches [i] s (s.putInputTrack i t) := by
  have h := touches_of_eq s i t [] (by simp)
  simpa [putInputTrack] using h

theorem updateInputTrackRange_none (g : ChannelRange) (s : StandaloneMainController) (i : Nat)
    (h : s.getInputTrack i = none) : updateInputTrackRange g s i = s := by
  unfold updateInputTrackRange; rw [h]

theorem updateInputTrackRange_noInput (g : ChannelRange) (s : StandaloneMainController) (i : Nat)
    (t : LocalInputAudioNode) (h : s.getInputTrack i = some t)
    (hr : t.route = InputTrackRoute.NoInput) : updateInputTrackRange g s i = s := by
  unfold updateInputTrackRange; rw [h]; simp only [hr]

/-- The loop body on an audio track, with the two checks in source order. -/
theorem updateInputTrackRange_audio (g : ChannelRange) (s : StandaloneMainController) (i : Nat)
    (t : LocalInputAudioNode) (r : ChannelRange) (h : s.getInputTrack i = some t)
    (hr : t.route = InputTrackRoute.Audio r) :
    updateInputTrackRange g s i =
      (let s1 := s.putInputTrack i (t.setGlobalFirstInputIndex g.getFirstChannel)
       let s2 :=
        if g.getChannels < r.getChannels then
          if g.isMono then s1.setInputTrackToMono i g.getFirstChannel
          else s1.setInputTrackToNoInput i
        else s1
       if r.getFirstChannel < g.getFirstChannel ∨ r.getLastChannel > g.getLastChannel then
        if g.isMono then s2.setInputTrackToMono i g.getFirstChannel
        else if g.getChannels ≥ 2 then s2.setInputTrackToStereo i g.getFirstChannel
        else s2
       else s2) := by
  unfold updateInputTrackRange; rw [h]; simp only [hr]

/-- The loop body on a MIDI track. -/
theorem updateInputTrackRange_midi (g : ChannelRange) (s : StandaloneMainController) (i : Nat)
    (t : LocalInputAudioNode) (d c : Int) (h : s.getInputTrack i = some t)
    (hr : t.route = InputTrackRoute.Midi d c) :
    updateInputTrackRange g s i =
      (if (decide (d ≥ 0) && decide (d < s.midiDriver.getMaxInputDevices)
            && s.midiDriver.deviceIsGloballyEnabled d) = true then s
       else if s.midiDriver.getFirstGloballyEnableInputDevice ≥ 0 then
          s.setInputTrackToMIDI i s.midiDriver.getFirstGloballyEnableInputDevice (-1)
       else s.setInputTrackToNoInput i) := by
  unfold updateInputTrackRange; rw [h]; simp only [hr]
  cases (decide (d ≥ 0) && decide (d < s.midiDriver.getMaxInputDevices)
            && s.midiDriver.deviceIsGloballyEnabled d) <;> simp

/-- One pass of the loop body touches only the track it visits. -/
theorem updateInputTrackRange_touches (g : ChannelRange) (s : StandaloneMainController)
    (i : Nat) : Touches [i] s (updateInputTrackRange g s i) := by
  cases h : s.getInputTrack i with
  | none => rw [updateInputTrackRange_none g s i h]; exact Touches.refl _ _
  | some t =>
    cases hr : t.route with
    | NoInput => rw [updateInputTrackRange_noInput g s i t h hr]; exact Touches.refl _ _
    | Audio r =>
      rw [updateInputTrackRange_audio g s i t r h hr]
      have h1 := putInputTrack_touches s i (t.setGlobalFirstInputIndex g.getFirstChannel)
      have h2 : Touches [i] s
          (if g.getChannels < r.getChannels then
            if g.isMono then
              (s.putInputTrack i (t.setGlobalFirstInputIndex g.getFirstChannel)).setInputTrackToMono
                i g.getFirstChannel
            else
              (s.putInputTrack i
                (t.setGlobalFirstInputIndex g.getFirstChannel)).setInputTrackToNoInput i
          else s.putInputTrack i (t.setGlobalFirstInputIndex g.getFirstChannel)) := by
        by_cases c1 : g.getChannels < r.getChannels
        · rw [if_pos c1]
          by_cases c2 : g.isMono = true
          · rw [if_pos c2]; exact h1.same (setInputTrackToMono_touches _ _ _)
          · rw [if_neg c2]; exact h1.same (setInputTrackToNoInput_touches _ _)
        · rw [if_neg c1]; exact h1
      simp only
      by_cases c3 : r.getFirstChannel < g.getFirstChannel ∨ r.getLastChannel > g.getLastChannel
      · rw [if_pos c3]
        by_cases c2 : g.isMono = true
        · rw [if_pos c2]; exact h2.same (setInputTrackToMono_touches _ _ _)
        · rw [if_neg c2]
          by_cases c4 : g.getChannels ≥ 2
          · rw [if_pos c4]; exact h2.same (setInputTrackToStereo_touches _ _ _)
          · rw [if_neg c4]; exact h2
      · rw [if_neg c3]; exact h2
    | Midi d c =>
      rw [updateInputTrackRange_midi g s i t d c h hr]
      split_ifs
      · exact Touches.refl _ _
      · exact setInputTrackToMIDI_touches _ _ _ _
      · exact setInputTrackToNoInput_touches _ _

/-- Running the loop body over a list of indices touches only those indices. -/
theorem foldl_touches (g : ChannelRange) (l : List Nat) (s : StandaloneMainController) :
    Touches l s (l.foldl (updateInputTrackRange g) s) := by
  induction l generalizing s with
  | nil => exact Touches.refl _ _
  | cons a l ih =>
    rw [List.foldl_cons]
    exact (updateInputTrackRange_touches g s a).trans (ih _)

theorem range_split (n i : Nat) (hi : i < n) :
    ∃ l1 l2, List.range n = l1 ++ i :: l2 ∧ i ∉ l1 ∧ i ∉ l2 := by
  obtain ⟨l1, l2, h⟩ := List.append_of_mem (List.mem_range.mpr hi)
  have hnd : (l1 ++ i :: l2).Nodup := h ▸ List.nodup_range n
  rw [List.nodup_append] at hnd
  obtain ⟨_, h2, h3⟩ := hnd
  refine ⟨l1, l2, h, ?_, (List.nodup_cons.mp h2).1⟩
  intro hm
  exact h3 hm (List.mem_cons_self _ _)

/-- A reconciliation run, seen from one existing track: the visits before it and after
it do not touch the track, its calls, or the settings. -/
theorem updateInputTracksRange_at (s : StandaloneMainController) (i : Nat)
    (hi : i < s.inputTracks.length) :
    ∃ s1 l1 l2, i ∉ l1 ∧ i ∉ l2 ∧ Touches l1 s s1 ∧
      Touches l2 (updateInputTrackRange s.selectedInputs s1 i) s.updateInputTracksRange := by
  obtain ⟨l1, l2, h, h1, h2⟩ := range_split _ i hi
  refine ⟨l1.foldl (updateInputTrackRange s.selectedInputs) s, l1, l2, h1, h2,
    foldl_touches _ _ _, ?_⟩
  unfold updateInputTracksRange
  simp only [h, List.foldl_append, List.foldl_cons]
  exact foldl_touches _ _ _

theorem updateInputTracksRange_touches (s : StandaloneMainController) :
    Touches (List.range s.inputTracks.length) s s.updateInputTracksRange :=
  foldl_touches _ _ _

/-! ## Results: the track under reconciliation -/

theorem getElem?_set_of_some {α : Type} {l : List α} {i : Nat} {a b : α}
    (h : l[i]? = some a) : (l.set i b)[i]? = some b := by
  have hlt : i < l.length := by
    by_contra hge
    rw [List.getElem?_eq_none (Nat.le_of_not_lt hge)] at h
    exact Option.noConfusion h
  simp [List.getElem?_set_self hlt]

theorem getInputTrack_putInputTrack {s : StandaloneMainController} {i : Nat}
    {t t2 : LocalInputAudioNode} (h : s.getInputTrack i = some t) :
    (s.putInputTrack i t2).getInputTrack i = some t2 :=
  getElem?_set_of_some h

theorem routeAt_eq_some {s : StandaloneMainController} {i : Nat} {r : InputTrackRoute}
    (h : s.routeAt i = some r) : ∃ t, s.getInputTrack i = some t ∧ t.route = r := by
  unfold routeAt at h
  cases ht : s.getInputTrack i with
  | none => rw [ht] at h; exact Option.noConfusion h
  | some t => rw [ht] at h; exact ⟨t, rfl, Option.some.inj h⟩

theorem inputIndexIsValid_first (s : StandaloneMainController)
    (h : 1 ≤ s.selectedInputs.channels) :
    s.inputIndexIsValid s.selectedInputs.getFirstChannel = true := by
  simp only [inputIndexIsValid, ChannelRange.getFirstChannel, ChannelRange.getLastChannel,
    Bool.and_eq_true, decide_eq_true_eq]
  constructor <;> omega

/-- The track left by `setInputTrackToMono` at the first global channel. -/
theorem getInputTrack_mono_first {s : StandaloneMainController} {i : Nat}
    {t : LocalInputAudioNode} (h : s.getInputTrack i = some t)
    (hg : 1 ≤ s.selectedInputs.channels) :
    (s.setInputTrackToMono i s.selectedInputs.getFirstChannel).getInputTrack i =
      some (t.setAudioInputSelection s.selectedInputs.firstChannel 1) := by
  rw [setInputTrackToMono_eq s i _ t h, inputIndexIsValid_first s hg]
  exact getElem?_set_of_some h

/-- The track left by `setInputTrackToStereo` at the first global channel. -/
theorem getInputTrack_stereo_first {s : StandaloneMainController} {i : Nat}
    {t : LocalInputAudioNode} (h : s.getInputTrack i = some t)
    (hg : 1 ≤ s.selectedInputs.channels) :
    (s.setInputTrackToStereo i s.selectedInputs.getFirstChannel).getInputTrack i =
      some (t.setAudioInputSelection s.selectedInputs.firstChannel 2) := by
  rw [setInputTrackToStereo_eq s i _ t h, inputIndexIsValid_first s hg]
  exact getElem?_set_of_some h

theorem getInputTrack_noInput {s : StandaloneMainController} {i : Nat}
    {t : LocalInputAudioNode} (h : s.getInputTrack i = some t) :
    (s.setInputTrackToNoInput i).getInputTrack i = some t.setToNoInput := by
  rw [setInputTrackToNoInput_eq s i t h]
  exact getElem?_set_of_some h

theorem getInputTrack_midi {s : StandaloneMainController} {i : Nat}
    {t : LocalInputAudioNode} (d c : Int) (h : s.getInputTrack i = some t) :
    (s.setInputTrackToMIDI i d c).getInputTrack i = some (t.setMidiInputSelection d c) := by
  rw [setInputTrackToMIDI_eq s i d c t h]
  exact getElem?_set_of_some h

/-- Loop body, one-channel global range: an audio track with at least one channel ends
as mono on the first global channel. -/
theorem updateInputTrackRange_mono_global (s : StandaloneMainController) (i : Nat)
    (t : LocalInputAudioNode) (r : ChannelRange) (h : s.getInputTrack i = some t)
    (hr : t.route = InputTrackRoute.Audio r) (hg : s.selectedInputs.channels = 1)
    (hrc : 1 ≤ r.channels) :
    (updateInputTrackRange s.selectedInputs s i).routeAt i =
      some (InputTrackRoute.Audio ⟨s.selectedInputs.firstChannel, 1⟩) := by
  rw [updateInputTrackRange_audio _ s i t r h hr]
  have hm : s.selectedInputs.isMono = true := by simp [ChannelRange.isMono, hg]
  have hg1 : 1 ≤ s.selectedInputs.channels := by omega
  have h1 : (s.putInputTrack i
      (t.setGlobalFirstInputIndex s.selectedInputs.getFirstChannel)).getInputTrack i =
      some (t.setGlobalFirstInputIndex s.selectedInputs.getFirstChannel) :=
    getInputTrack_putInputTrack h
  have hs1 : (s.putInputTrack i
      (t.setGlobalFirstInputIndex s.selectedInputs.getFirstChannel)).selectedInputs =
      s.selectedInputs := rfl
  simp only [hm, if_true]
  by_cases c1 : s.selectedInputs.getChannels < r.getChannels
  · rw [if_pos c1]
    have h2 := getInputTrack_mono_first h1 (by rw [hs1]; exact hg1)
    rw [hs1] at h2
    have hs2 := (setInputTrackToMono_touches (s.putInputTrack i
      (t.setGlobalFirstInputIndex s.selectedInputs.getFirstChannel)) i
      s.selectedInputs.getFirstChannel).selectedInputs
    rw [hs1] at hs2
    split_ifs
    · have h3 := getInputTrack_mono_first h2 (by rw [hs2]; exact hg1)
      rw [hs2] at h3
      simp [routeAt, h3, LocalInputAudioNode.setAudioInputSelection]
    · simp [routeAt, h2, LocalInputAudioNode.setAudioInputSelection]
  · rw [if_neg c1]
    split_ifs with c3
    · have h3 := getInputTrack_mono_first h1 (by rw [hs1]; exact hg1)
      rw [hs1] at h3
      simp [routeAt, h3, LocalInputAudioNode.setAudioInputSelection]
    · rw [routeAt, h1]
      simp only [Option.map_some', LocalInputAudioNode.setGlobalFirstInputIndex, hr]
      simp only [ChannelRange.getChannels, ChannelRange.getFirstChannel,
        ChannelRange.getLastChannel] at c1 c3
      obtain ⟨rf, rc⟩ := r
      simp only at c1 c3 hrc
      have e1 : rf = s.selectedInputs.firstChannel := by omega
      have e2 : rc = 1 := by omega
      rw [e1, e2]

theorem lt_length_of_getInputTrack {s : StandaloneMainController} {i : Nat}
    {t : LocalInputAudioNode} (h : s.getInputTrack i = some t) : i < s.inputTracks.length := by
  by_contra hge
  unfold getInputTrack at h
  rw [List.getElem?_eq_none (Nat.le_of_not_lt hge)] at h
  exact Option.noConfusion h

/-- Loop body, global range of two or more channels: an audio track that leaves the
global range ends as stereo on the first global channel, whatever the first check did. -/
theorem updateInputTrackRange_out_of_bounds (s : StandaloneMainController) (i : Nat)
    (t : LocalInputAudioNode) (r : ChannelRange) (h : s.getInputTrack i = some t)
    (hr : t.route = InputTrackRoute.Audio r) (hg : 2 ≤ s.selectedInputs.channels)
    (hout : r.getFirstChannel < s.selectedInputs.getFirstChannel
      ∨ r.getLastChannel > s.selectedInputs.getLastChannel) :
    (updateInputTrackRange s.selectedInputs s i).routeAt i =
      some (InputTrackRoute.Audio ⟨s.selectedInputs.firstChannel, 2⟩) := by
  rw [updateInputTrackRange_audio _ s i t r h hr]
  have hm : s.selectedInputs.isMono = false := by
    simp only [ChannelRange.isMono, decide_eq_false_iff_not]; omega
  have hge : s.selectedInputs.getChannels ≥ 2 := hg
  have h1 : (s.putInputTrack i
      (t.setGlobalFirstInputIndex s.selectedInputs.getFirstChannel)).getInputTrack i =
      some (t.setGlobalFirstInputIndex s.selectedInputs.getFirstChannel) :=
    getInputTrack_putInputTrack h
  have hs1 : (s.putInputTrack i
      (t.setGlobalFirstInputIndex s.selectedInputs.getFirstChannel)).selectedInputs =
      s.selectedInputs := rfl
  simp only [hm, Bool.false_eq_true, if_false, if_pos hout, if_pos hge]
  by_cases c1 : s.selectedInputs.getChannels < r.getChannels
  · rw [if_pos c1]
    have h2 := getInputTrack_noInput h1
    have hs2 := (setInputTrackToNoInput_touches (s.putInputTrack i
      (t.setGlobalFirstInputIndex s.selectedInputs.getFirstChannel)) i).selectedInputs
    rw [hs1] at hs2
    have h3 := getInputTrack_stereo_first h2 (by rw [hs2]; omega)
    rw [hs2] at h3
    simp [routeAt, h3, LocalInputAudioNode.setAudioInputSelection]
  · rw [if_neg c1]
    have h3 := getInputTrack_stereo_first h1 (by rw [hs1]; omega)
    rw [hs1] at h3
    simp [routeAt, h3, LocalInputAudioNode.setAudioInputSelection]

/-- Loop body on an audio track whose range lies inside the global range: only the
stored global first input index is written. -/
theorem updateInputTrackRange_inside (s : StandaloneMainController) (i : Nat)
    (t : LocalInputAudioNode) (r : ChannelRange) (h : s.getInputTrack i = some t)
    (hr : t.route = InputTrackRoute.Audio r)
    (h1 : s.selectedInputs.getFirstChannel ≤ r.getFirstChannel)
    (h2 : r.getLastChannel ≤ s.selectedInputs.getLastChannel) :
    updateInputTrackRange s.selectedInputs s i =
      s.putInputTrack i (t.setGlobalFirstInputIndex s.selectedInputs.getFirstChannel) := by
  rw [updateInputTrackRange_audio _ s i t r h hr]
  simp only [ChannelRange.getChannels, ChannelRange.getFirstChannel,
    ChannelRange.getLastChannel] at h1 h2 ⊢
  have c1 : ¬ s.selectedInputs.channels < r.channels := by omega
  have c3 : ¬ (r.firstChannel < s.selectedInputs.firstChannel
      ∨ r.firstChannel + r.channels - 1 >
        s.selectedInputs.firstChannel + s.selectedInputs.channels - 1) := by omega
  rw [if_neg c1, if_neg c3]

/-- One reconciliation run leaves an audio track that fits the global range with its
route, and logs nothing for it. -/
theorem updateInputTracksRange_inside (s : StandaloneMainController) (i : Nat)
    (r : ChannelRange) (h : s.routeAt i = some (InputTrackRoute.Audio r))
    (h1 : s.selectedInputs.getFirstChannel ≤ r.getFirstChannel)
    (h2 : r.getLastChannel ≤ s.selectedInputs.getLastChannel) :
    s.updateInputTracksRange.routeAt i = some (InputTrackRoute.Audio r) ∧
      s.updateInputTracksRange.effectsFor i = s.effectsFor i ∧
      s.updateInputTracksRange.selectedInputs = s.selectedInputs := by
  obtain ⟨t, ht, hr⟩ := routeAt_eq_some h
  obtain ⟨s1, l1, l2, hi1, hi2, T1, T2⟩ :=
    updateInputTracksRange_at s i (lt_length_of_getInputTrack ht)
  have ht1 : s1.getInputTrack i = some t := (T1.getInputTrack hi1).trans ht
  have hg1 : s1.selectedInputs = s.selectedInputs := T1.selectedInputs
  have hb := updateInputTrackRange_inside s1 i t r ht1 hr (by rw [hg1]; exact h1)
    (by rw [hg1]; exact h2)
  rw [hg1] at hb
  refine ⟨?_, ?_, (updateInputTracksRange_touches s).selectedInputs⟩
  · unfold routeAt
    rw [T2.getInputTrack hi2, hb, getInputTrack_putInputTrack ht1]
    simp [LocalInputAudioNode.setGlobalFirstInputIndex, hr]
  · rw [T2.effectsFor hi2, hb, ← T1.effectsFor hi1]
    rfl

/-- C1. When the global input range has exactly one channel, every existing audio track
with at least one channel has, after one run of `updateInputTracksRange`, the route
`Audio{g.first, 1}`, whatever its old range was. -/
theorem C1_mono_global_forces_mono (s : StandaloneMainController) (i : Nat) (r : ChannelRange)
    (h : s.routeAt i = some (InputTrackRoute.Audio r))
    (hg : s.selectedInputs.getChannels = 1) (hrc : 1 ≤ r.getChannels) :
    s.updateInputTracksRange.routeAt i =
      some (InputTrackRoute.Audio ⟨s.selectedInputs.getFirstChannel, 1⟩) := by
  obtain ⟨t, ht, hr⟩ := routeAt_eq_some h
  obtain ⟨s1, l1, l2, hi1, hi2, T1, T2⟩ :=
    updateInputTracksRange_at s i (lt_length_of_getInputTrack ht)
  have ht1 : s1.getInputTrack i = some t := (T1.getInputTrack hi1).trans ht
  have hg1 : s1.selectedInputs = s.selectedInputs := T1.selectedInputs
  have hb := updateInputTrackRange_mono_global s1 i t r ht1 hr (by rw [hg1]; exact hg) hrc
  rw [hg1] at hb
  unfold routeAt
  rw [T2.getInputTrack hi2]
  exact hb

/-- C2. When the global input range has at least two channels, every existing audio track
whose range starts before the global range or ends after it has, after one run of
`updateInputTracksRange`, the final route `Audio{g.first, 2}`, also when the old range
had more channels than the global range. -/
theorem C2_out_of_bounds_forces_stereo (s : StandaloneMainController) (i : Nat)
    (r : ChannelRange) (h : s.routeAt i = some (InputTrackRoute.Audio r))
    (hg : 2 ≤ s.selectedInputs.getChannels)
    (hout : r.getFirstChannel < s.selectedInputs.getFirstChannel
      ∨ r.getLastChannel > s.selectedInputs.getLastChannel) :
    s.updateInputTracksRange.routeAt i =
      some (InputTrackRoute.Audio ⟨s.selectedInputs.getFirstChannel, 2⟩) := by
  obtain ⟨t, ht, hr⟩ := routeAt_eq_some h
  obtain ⟨s1, l1, l2, hi1, hi2, T1, T2⟩ :=
    updateInputTracksRange_at s i (lt_length_of_getInputTrack ht)
  have ht1 : s1.getInputTrack i = some t := (T1.getInputTrack hi1).trans ht
  have hg1 : s1.selectedInputs = s.selectedInputs := T1.selectedInputs
  have hb := updateInputTrackRange_out_of_bounds s1 i t r ht1 hr (by rw [hg1]; exact hg)
    (by rw [hg1]; exact hout)
  rw [hg1] at hb
  unfold routeAt
  rw [T2.getInputTrack hi2]
  exact hb

/-- C3. An audio track whose range lies inside the global input range is left alone by
`updateInputTracksRange`, however many times it is run: the route is unchanged and no
GUI refresh, interval flush or encoder change is logged for the track. -/
theorem C3_inside_range_is_noop (s : StandaloneMainController) (i : Nat) (r : ChannelRange)
    (h : s.routeAt i = some (InputTrackRoute.Audio r))
    (h1 : s.selectedInputs.getFirstChannel ≤ r.getFirstChannel)
    (h2 : r.getLastChannel ≤ s.selectedInputs.getLastChannel) (n : Nat) :
    (updateInputTracksRange^[n] s).routeAt i = some (InputTrackRoute.Audio r) ∧
      (updateInputTracksRange^[n] s).effectsFor i = s.effectsFor i := by
  have key : (updateInputTracksRange^[n] s).routeAt i = some (InputTrackRoute.Audio r) ∧
      (updateInputTracksRange^[n] s).effectsFor i = s.effectsFor i ∧
      (updateInputTracksRange^[n] s).selectedInputs = s.selectedInputs := by
    induction n with
    | zero => exact ⟨h, rfl, rfl⟩
    | succ n ih =>
      obtain ⟨ih1, ih2, ih3⟩ := ih
      rw [Function.iterate_succ_apply']
      obtain ⟨k1, k2, k3⟩ := updateInputTracksRange_inside _ i r ih1
        (by rw [ih3]; exact h1) (by rw [ih3]; exact h2)
      exact ⟨k1, k2.trans ih2, k3.trans ih3⟩
  exact ⟨key.1, key.2.1⟩

/-- Witness of C1: global range `{0,1}`, track `Audio{2,2}`. -/
theorem C1_mono_global_forces_mono_witness :
    (sampleController [⟨InputTrackRoute.Audio ⟨2, 2⟩, 0, 0⟩] ⟨0, 1⟩).updateInputTracksRange.routeAt 0
      = some (InputTrackRoute.Audio ⟨0, 1⟩) :=
  C1_mono_global_forces_mono (sampleController [⟨InputTrackRoute.Audio ⟨2, 2⟩, 0, 0⟩] ⟨0, 1⟩)
    0 ⟨2, 2⟩ (by decide) (by decide) (by decide)

/-- Witness of C2: global range `{0,2}`, track `Audio{1,2}` gives `Audio{0,2}`. -/
theorem C2_out_of_bounds_forces_stereo_witness :
    (sampleController [⟨InputTrackRoute.Audio ⟨1, 2⟩, 0, 0⟩] ⟨0, 2⟩).updateInputTracksRange.routeAt 0
      = some (InputTrackRoute.Audio ⟨0, 2⟩) :=
  C2_out_of_bounds_forces_stereo (sampleController [⟨InputTrackRoute.Audio ⟨1, 2⟩, 0, 0⟩] ⟨0, 2⟩)
    0 ⟨1, 2⟩ (by decide) (by decide) (by decide)

/-- Witness of C3: global range `{0,4}`, track `Audio{1,2}`, three runs. -/
theorem C3_inside_range_is_noop_witness :
    (updateInputTracksRange^[3]
        (sampleController [⟨InputTrackRoute.Audio ⟨1, 2⟩, 0, 0⟩] ⟨0, 4⟩)).routeAt 0
      = some (InputTrackRoute.Audio ⟨1, 2⟩) ∧
    (updateInputTracksRange^[3]
        (sampleController [⟨InputTrackRoute.Audio ⟨1, 2⟩, 0, 0⟩] ⟨0, 4⟩)).effectsFor 0 = [] :=
  C3_inside_range_is_noop (sampleController [⟨InputTrackRoute.Audio ⟨1, 2⟩, 0, 0⟩] ⟨0, 4⟩)
    0 ⟨1, 2⟩ (by decide) (by decide) (by decide) 3

/-! ## Results: MIDI tracks and validity of every track -/

theorem effectsFor_append (s : StandaloneMainController) (i : Nat)
    (tracks : List LocalInputAudioNode) (es : List Effect) :
    ({ s with inputTracks := tracks, effects := s.effects ++ es } :
      StandaloneMainController).effectsFor i =
      s.effectsFor i ++ es.filter (fun e => decide (e.track = i)) := by
  simp [effectsFor]

/-- The refresh calls logged for a track by `setInputTrackToMIDI`: one when there is a
window, none otherwise. -/
theorem setInputTrackToMIDI_refresh_count (s : StandaloneMainController) (i : Nat) (d c : Int)
    (t : LocalInputAudioNode) (h : s.getInputTrack i = some t) :
    ((s.setInputTrackToMIDI i d c).effectsFor i).count (Effect.refreshTrackInputSelection i) =
      (s.effectsFor i).count (Effect.refreshTrackInputSelection i)
        + (if s.window then 1 else 0) := by
  rw [setInputTrackToMIDI_eq s i d c t h, effectsFor_append, List.count_append]
  congr 1
  cases s.window <;> cases s.playingInNinjamRoom <;> cases s.ninjamController <;>
    simp [Effect.track, List.filter, List.count_cons]

/-- The refresh calls logged for a track by `setInputTrackToNoInput`: one when there is a
window, none otherwise. -/
theorem setInputTrackToNoInput_refresh_count (s : StandaloneMainController) (i : Nat)
    (t : LocalInputAudioNode) (h : s.getInputTrack i = some t) :
    ((s.setInputTrackToNoInput i).effectsFor i).count (Effect.refreshTrackInputSelection i) =
      (s.effectsFor i).count (Effect.refreshTrackInputSelection i)
        + (if s.window then 1 else 0) := by
  rw [setInputTrackToNoInput_eq s i t h, effectsFor_append, List.count_append]
  congr 1
  cases s.window <;> cases s.playingInNinjamRoom <;> cases s.ninjamController <;>
    by_cases hc : i ∈ s.intervalsToUpload <;>
    simp [Effect.track, List.filter, List.count_cons, hc]

/-- C4 (amended). For a MIDI track whose device index is outside `[0, maxInputDevices)`
or not globally enabled, `updateInputTracksRange` sets the route to `Midi{d, -1}` with `d`
the driver's first globally enabled device when that is non-negative and to `NoInput`
otherwise, and the GUI refresh for the track is called once when the controller has a
window and not at all when it has none. For a device in range and enabled the route is
unchanged and nothing is logged for the track. -/
theorem C4_midi_reconciliation (s : StandaloneMainController) (i : Nat) (d c : Int)
    (h : s.routeAt i = some (InputTrackRoute.Midi d c)) :
    (¬ (0 ≤ d ∧ d < s.midiDriver.getMaxInputDevices
          ∧ s.midiDriver.deviceIsGloballyEnabled d = true) →
      s.updateInputTracksRange.routeAt i =
        some (if s.midiDriver.getFirstGloballyEnableInputDevice ≥ 0 then
            InputTrackRoute.Midi s.midiDriver.getFirstGloballyEnableInputDevice (-1)
          else InputTrackRoute.NoInput) ∧
      (s.updateInputTracksRange.effectsFor i).count (Effect.refreshTrackInputSelection i) =
        (s.effectsFor i).count (Effect.refreshTrackInputSelection i)
          + (if s.window then 1 else 0)) ∧
    ((0 ≤ d ∧ d < s.midiDriver.getMaxInputDevices
          ∧ s.midiDriver.deviceIsGloballyEnabled d = true) →
      s.updateInputTracksRange.routeAt i = some (InputTrackRoute.Midi d c) ∧
      s.updateInputTracksRange.effectsFor i = s.effectsFor i) := by
  obtain ⟨t, ht, hr⟩ := routeAt_eq_some h
  obtain ⟨s1, l1, l2, hi1, hi2, T1, T2⟩ :=
    updateInputTracksRange_at s i (lt_length_of_getInputTrack ht)
  have ht1 : s1.getInputTrack i = some t := (T1.getInputTrack hi1).trans ht
  have hmd : s1.midiDriver = s.midiDriver := T1.midiDriver
  have hw : s1.window = s.window := T1.window
  have he : s1.effectsFor i = s.effectsFor i := T1.effectsFor hi1
  have hb := updateInputTrackRange_midi s.selectedInputs s1 i t d c ht1 hr
  rw [hmd] at hb
  have hcond : ((decide (d ≥ 0) && decide (d < s.midiDriver.getMaxInputDevices)
      && s.midiDriver.deviceIsGloballyEnabled d) = true) ↔
      (0 ≤ d ∧ d < s.midiDriver.getMaxInputDevices
          ∧ s.midiDriver.deviceIsGloballyEnabled d = true) := by
    simp [Bool.and_eq_true, and_assoc]
  unfold routeAt
  rw [T2.getInputTrack hi2, T2.effectsFor hi2, hb]
  constructor
  · intro hinv
    rw [if_neg (fun hc => hinv (hcond.mp hc))]
    by_cases hf : s.midiDriver.getFirstGloballyEnableInputDevice ≥ 0
    · rw [if_pos hf, if_pos hf, getInputTrack_midi _ _ ht1,
        setInputTrackToMIDI_refresh_count s1 i _ _ t ht1, he, hw]
      exact ⟨rfl, rfl⟩
    · rw [if_neg hf, if_neg hf, getInputTrack_noInput ht1,
        setInputTrackToNoInput_refresh_count s1 i t ht1, he, hw]
      exact ⟨rfl, rfl⟩
  · intro hval
    rw [if_pos (hcond.mpr hval), ht1, he]
    exact ⟨by simp [hr], rfl⟩

/-- Witness of C4: a track on device 5 of a driver with two devices, device 1 enabled. -/
theorem C4_midi_reconciliation_witness :
    (sampleController [⟨InputTrackRoute.Midi 5 0, 0, 0⟩] ⟨0, 2⟩).updateInputTracksRange.routeAt 0
      = some (InputTrackRoute.Midi 1 (-1)) ∧
    ((sampleController [⟨InputTrackRoute.Midi 5 0, 0, 0⟩] ⟨0, 2⟩).updateInputTracksRange.effectsFor
      0).count (Effect.refreshTrackInputSelection 0) = 1 :=
  (C4_midi_reconciliation (sampleController [⟨InputTrackRoute.Midi 5 0, 0, 0⟩] ⟨0, 2⟩) 0 5 0
    (by decide)).1 (by decide)

/-- C4 as stated fails: without a window the invalid MIDI track is rerouted but the GUI
refresh is not called, so it does not fire exactly once. -/
theorem C4_counterexample_no_window :
    (windowlessController [⟨InputTrackRoute.Midi 5 0, 0, 0⟩] ⟨0, 2⟩).routeAt 0
      = some (InputTrackRoute.Midi 5 0) ∧
    ¬ ((5 : Int) < sampleMidiDriver.getMaxInputDevices) ∧
    (windowlessController [⟨InputTrackRoute.Midi 5 0, 0, 0⟩]
      ⟨0, 2⟩).updateInputTracksRange.routeAt 0 = some (InputTrackRoute.Midi 1 (-1)) ∧
    ¬ ((windowlessController [⟨InputTrackRoute.Midi 5 0, 0, 0⟩]
      ⟨0, 2⟩).updateInputTracksRange.effects.count (Effect.refreshTrackInputSelection 0) = 1) := by
  decide

/-- Loop body: under the hypotheses of C5 the visited track ends with a valid route. -/
theorem updateInputTrackRange_valid (s : StandaloneMainController) (i : Nat)
    (t : LocalInputAudioNode) (h : s.getInputTrack i = some t)
    (hg : 0 ≤ s.selectedInputs.getChannels)
    (hmd : s.midiDriver.getFirstGloballyEnableInputDevice < 0 ∨
      (s.midiDriver.getFirstGloballyEnableInputDevice < s.midiDriver.getMaxInputDevices ∧
        s.midiDriver.deviceIsGloballyEnabled s.midiDriver.getFirstGloballyEnableInputDevice
          = true))
    (hrc : hasAudioChannel t.route = true) :
    ∃ rt, (updateInputTrackRange s.selectedInputs s i).routeAt i = some rt ∧
      validRoute s.selectedInputs s.midiDriver rt = true := by
  cases hr : t.route with
  | NoInput =>
    rw [updateInputTrackRange_noInput _ s i t h hr]
    exact ⟨InputTrackRoute.NoInput, by simp [routeAt, h, hr], rfl⟩
  | Audio r =>
    rw [hr] at hrc
    simp only [hasAudioChannel, decide_eq_true_eq] at hrc
    by_cases hone : s.selectedInputs.channels = 1
    · refine ⟨_, updateInputTrackRange_mono_global s i t r h hr hone hrc, ?_⟩
      simp only [validRoute, ChannelRange.getFirstChannel, ChannelRange.getLastChannel,
        Bool.and_eq_true, decide_eq_true_eq]
      omega
    · by_cases htwo : 2 ≤ s.selectedInputs.channels
      · by_cases hout : r.getFirstChannel < s.selectedInputs.getFirstChannel
            ∨ r.getLastChannel > s.selectedInputs.getLastChannel
        · refine ⟨_, updateInputTrackRange_out_of_bounds s i t r h hr htwo hout, ?_⟩
          simp only [validRoute, ChannelRange.getFirstChannel, ChannelRange.getLastChannel,
            Bool.and_eq_true, decide_eq_true_eq]
          omega
        · have hin1 : s.selectedInputs.getFirstChannel ≤ r.getFirstChannel := by omega
          have hin2 : r.getLastChannel ≤ s.selectedInputs.getLastChannel := by omega
          rw [updateInputTrackRange_inside s i t r h hr hin1 hin2]
          refine ⟨InputTrackRoute.Audio r, ?_, ?_⟩
          · rw [routeAt, getInputTrack_putInputTrack h]
            simp [LocalInputAudioNode.setGlobalFirstInputIndex, hr]
          · simp only [validRoute, Bool.and_eq_true, decide_eq_true_eq]
            exact ⟨hin1, hin2⟩
      · have hzero : s.selectedInputs.channels = 0 := by
          simp only [ChannelRange.getChannels] at hg; omega
        rw [updateInputTrackRange_audio _ s i t r h hr]
        have hm : s.selectedInputs.isMono = false := by
          simp [ChannelRange.isMono, hzero]
        have c1 : s.selectedInputs.getChannels < r.getChannels := by
          simp only [ChannelRange.getChannels] at hrc ⊢; omega
        have c4 : ¬ s.selectedInputs.getChannels ≥ 2 := by
          simp only [ChannelRange.getChannels]; omega
        simp only [hm, Bool.false_eq_true, if_false, if_pos c1, if_neg c4, ite_self]
        refine ⟨InputTrackRoute.NoInput, ?_, rfl⟩
        rw [routeAt, getInputTrack_noInput (getInputTrack_putInputTrack h)]
        rfl
  | Midi d c =>
    rw [updateInputTrackRange_midi _ s i t d c h hr]
    by_cases hv : (decide (d ≥ 0) && decide (d < s.midiDriver.getMaxInputDevices)
        && s.midiDriver.deviceIsGloballyEnabled d) = true
    · rw [if_pos hv]
      exact ⟨InputTrackRoute.Midi d c, by simp [routeAt, h, hr], by simpa [validRoute] using hv⟩
    · rw [if_neg hv]
      by_cases hf : s.midiDriver.getFirstGloballyEnableInputDevice ≥ 0
      · rw [if_pos hf]
        refine ⟨InputTrackRoute.Midi s.midiDriver.getFirstGloballyEnableInputDevice (-1), ?_, ?_⟩
        · rw [routeAt, getInputTrack_midi _ _ h]; rfl
        · rcases hmd with hneg | ⟨hlt, hen⟩
          · omega
          · simp only [validRoute, Bool.and_eq_true, decide_eq_true_eq]
            exact ⟨⟨hf, hlt⟩, hen⟩
      · rw [if_neg hf]
        refine ⟨InputTrackRoute.NoInput, ?_, rfl⟩
        rw [routeAt, getInputTrack_noInput h]
        rfl

/-- C5. When the global input range has a channel count of at least zero, the driver's
first-enabled-device query answers a negative value or an in-range enabled device, and
every audio track has at least one channel, then after one run of
`updateInputTracksRange` every track has a valid route: `NoInput`, an audio range inside
the global range, or a MIDI device in `[0, maxInputDevices)` that is globally enabled. -/
theorem C5_all_tracks_valid_after_run (s : StandaloneMainController)
    (hg : 0 ≤ s.selectedInputs.getChannels)
    (hmd : s.midiDriver.getFirstGloballyEnableInputDevice < 0 ∨
      (s.midiDriver.getFirstGloballyEnableInputDevice < s.midiDriver.getMaxInputDevices ∧
        s.midiDriver.deviceIsGloballyEnabled s.midiDriver.getFirstGloballyEnableInputDevice
          = true))
    (hrc : ∀ t ∈ s.inputTracks, hasAudioChannel t.route = true) :
    ∀ t ∈ s.updateInputTracksRange.inputTracks,
      validRoute s.selectedInputs s.midiDriver t.route = true := by
  intro t2 hmem
  obtain ⟨i, hi⟩ := List.mem_iff_getElem?.mp hmem
  have hlen := (updateInputTracksRange_touches s).length
  have hilt : i < s.inputTracks.length := by
    rw [← hlen]
    exact lt_length_of_getInputTrack hi
  have ht : s.getInputTrack i = some (s.inputTracks[i]) := by
    unfold getInputTrack
    exact List.getElem?_eq_getElem hilt
  obtain ⟨s1, l1, l2, hi1, hi2, T1, T2⟩ := updateInputTracksRange_at s i hilt
  have ht1 : s1.getInputTrack i = some (s.inputTracks[i]) := (T1.getInputTrack hi1).trans ht
  have hg1 : s1.selectedInputs = s.selectedInputs := T1.selectedInputs
  have hmd1 : s1.midiDriver = s.midiDriver := T1.midiDriver
  obtain ⟨rt, hrt, hv⟩ := updateInputTrackRange_valid s1 i _ ht1 (by rw [hg1]; exact hg)
    (by rw [hmd1]; exact hmd) (hrc _ (List.getElem_mem hilt))
  rw [hg1, hmd1] at hv
  rw [hg1] at hrt
  unfold routeAt at hrt
  rw [← T2.getInputTrack hi2] at hrt
  have hi2 : s.updateInputTracksRange.getInputTrack i = some t2 := hi
  rw [hi2] at hrt
  simp only [Option.map_some', Option.some.injEq] at hrt
  rw [hrt]
  exact hv

/-- Witness of C5: an out-of-range stereo track, a track on a missing MIDI device and a
track without input, under the global range `{0,2}`. -/
theorem C5_all_tracks_valid_after_run_witness :
    (sampleController [⟨InputTrackRoute.Audio ⟨3, 2⟩, 0, 0⟩, ⟨InputTrackRoute.Midi 7 0, 1, 0⟩,
        ⟨InputTrackRoute.NoInput, 2, 0⟩] ⟨0, 2⟩).updateInputTracksRange.inputTracks.all
      (fun t => validRoute ⟨0, 2⟩ sampleMidiDriver t.route) = true :=
  List.all_eq_true.mpr
    (C5_all_tracks_valid_after_run
      (sampleController [⟨InputTrackRoute.Audio ⟨3, 2⟩, 0, 0⟩, ⟨InputTrackRoute.Midi 7 0, 1, 0⟩,
        ⟨InputTrackRoute.NoInput, 2, 0⟩] ⟨0, 2⟩)
      (by decide) (by decide) (by decide))

/-! ## Results: encoder change scheduled by the route mutators -/

/-- C10 (amended). For an existing track, while playing in a ninjam room with a ninjam
controller: `setInputTrackToMono`, `setInputTrackToStereo` and `setInputTrackToMIDI` log,
after the optional GUI refresh, the encoder change for the track's group channel, with
or without a pending interval; `setInputTrackToNoInput` logs it exactly when the track
has a pending outgoing interval, right after sending the final interval part. -/
theorem C10_encoder_change_on_route_change (s : StandaloneMainController) (i : Nat)
    (t : LocalInputAudioNode) (h : s.getInputTrack i = some t)
    (hp : s.playingInNinjamRoom = true) (hn : s.ninjamController = true) :
    (∀ idx, (s.setInputTrackToMono i idx).effects = s.effects ++
      ((if s.window then [Effect.refreshTrackInputSelection i] else []) ++
        [Effect.scheduleEncoderChangeForChannel i t.getGroupChannelIndex])) ∧
    (∀ idx, (s.setInputTrackToStereo i idx).effects = s.effects ++
      ((if s.window then [Effect.refreshTrackInputSelection i] else []) ++
        [Effect.scheduleEncoderChangeForChannel i t.getGroupChannelIndex])) ∧
    (∀ d c, (s.setInputTrackToMIDI i d c).effects = s.effects ++
      ((if s.window then [Effect.refreshTrackInputSelection i] else []) ++
        [Effect.scheduleEncoderChangeForChannel i t.getGroupChannelIndex])) ∧
    (s.setInputTrackToNoInput i).effects = s.effects ++
      ((if s.window then [Effect.refreshTrackInputSelection i] else []) ++
        (if s.intervalsToUpload.contains i then
          [Effect.sendAudioIntervalPart i,
            Effect.scheduleEncoderChangeForChannel i t.getGroupChannelIndex]
         else [])) := by
  refine ⟨fun idx => ?_, fun idx => ?_, fun d c => ?_, ?_⟩
  · rw [setInputTrackToMono_eq s i idx t h]
    simp [hp, hn, LocalInputAudioNode.getGroupChannelIndex]
  · rw [setInputTrackToStereo_eq s i idx t h]
    simp [hp, hn, LocalInputAudioNode.getGroupChannelIndex]
  · rw [setInputTrackToMIDI_eq s i d c t h]
    simp [hp, hn, LocalInputAudioNode.getGroupChannelIndex]
  · rw [setInputTrackToNoInput_eq s i t h]
    simp [hp, hn, LocalInputAudioNode.getGroupChannelIndex]

/-- Witness of C10: a mono track on group channel 3, once without and once with a
pending interval. -/
theorem C10_encoder_change_on_route_change_witness :
    ((sampleController [⟨InputTrackRoute.Audio ⟨0, 1⟩, 3, 0⟩] ⟨0, 2⟩).setInputTrackToStereo 0
        0).effects
      = [Effect.refreshTrackInputSelection 0, Effect.scheduleEncoderChangeForChannel 0 3] ∧
    ({ sampleController [⟨InputTrackRoute.Audio ⟨0, 1⟩, 3, 0⟩] ⟨0, 2⟩ with
        intervalsToUpload := [0] }.setInputTrackToNoInput 0).effects
      = [Effect.refreshTrackInputSelection 0, Effect.sendAudioIntervalPart 0,
          Effect.scheduleEncoderChangeForChannel 0 3] :=
  ⟨(C10_encoder_change_on_route_change
      (sampleController [⟨InputTrackRoute.Audio ⟨0, 1⟩, 3, 0⟩] ⟨0, 2⟩) 0
      ⟨InputTrackRoute.Audio ⟨0, 1⟩, 3, 0⟩ rfl rfl rfl).2.1 0,
   (C10_encoder_change_on_route_change
      { sampleController [⟨InputTrackRoute.Audio ⟨0, 1⟩, 3, 0⟩] ⟨0, 2⟩ with
        intervalsToUpload := [0] } 0
      ⟨InputTrackRoute.Audio ⟨0, 1⟩, 3, 0⟩ rfl rfl rfl).2.2.2⟩

/-- C10 as stated fails: playing in a ninjam room with a ninjam controller and no pending
interval, `setInputTrackToNoInput` changes the route of an existing track and logs the
GUI refresh only; no encoder change is scheduled. -/
theorem C10_counterexample_no_pending_interval :
    (sampleController [⟨InputTrackRoute.Audio ⟨0, 1⟩, 3, 0⟩] ⟨0, 2⟩).playingInNinjamRoom = true ∧
    (sampleController [⟨InputTrackRoute.Audio ⟨0, 1⟩, 3, 0⟩] ⟨0, 2⟩).ninjamController = true ∧
    ((sampleController [⟨InputTrackRoute.Audio ⟨0, 1⟩, 3, 0⟩] ⟨0, 2⟩).setInputTrackToNoInput
        0).routeAt 0 = some InputTrackRoute.NoInput ∧
    ((sampleController [⟨InputTrackRoute.Audio ⟨0, 1⟩, 3, 0⟩] ⟨0, 2⟩).setInputTrackToNoInput
        0).effects = [Effect.refreshTrackInputSelection 0] ∧
    Effect.scheduleEncoderChangeForChannel 0 3 ∉
      ((sampleController [⟨InputTrackRoute.Audio ⟨0, 1⟩, 3, 0⟩] ⟨0, 2⟩).setInputTrackToNoInput
        0).effects := by
  decide

end StandaloneMainController

/-! ## Results: reading lines -/

theorem cutLines_cons (c : Char) (x : List Char) :
    cutLines (c :: x) =
      if c = lineFeed then [] :: cutLines x
      else
        match cutLines x with
        | [] => [[c]]
        | l :: ls => (c :: l) :: ls := by
  rw [cutLines]

theorem cutLines_ne_nil (c : Char) (x : List Char) : cutLines (c :: x) ≠ [] := by
  rw [cutLines_cons]
  split_ifs
  · simp
  · split <;> simp

/-- Cutting a text whose first part ends with a line feed cuts the two parts apart. -/
theorem cutLines_append_lineFeed (a b : List Char) :
    cutLines (a ++ lineFeed :: b) = cutLines (a ++ [lineFeed]) ++ cutLines b := by
  induction a with
  | nil => simp [cutLines]
  | cons c a ih =>
    rw [List.cons_append, List.cons_append, cutLines_cons, cutLines_cons c (a ++ [lineFeed]), ih]
    split_ifs
    · simp
    · cases hx : cutLines (a ++ [lineFeed]) with
      | nil =>
        exfalso
        cases a with
        | nil => simp [cutLines] at hx
        | cons d a => exact cutLines_ne_nil d _ hx
      | cons l ls => simp

theorem readAllLines_append_lineFeed (a b : List Char) :
    readAllLines (a ++ lineFeed :: b) = readAllLines (a ++ [lineFeed]) ++ readAllLines b := by
  simp [readAllLines, cutLines_append_lineFeed a b]

/-- A piece without line feed, followed by a line feed, is the first line cut. -/
theorem cutLines_line (a b : List Char) (h : lineFeed ∉ a) :
    cutLines (a ++ lineFeed :: b) = a :: cutLines b := by
  induction a with
  | nil => simp [cutLines]
  | cons c a ih =>
    have hc : c ≠ lineFeed := fun e => h (by simp [e])
    have ha : lineFeed ∉ a := fun m => h (List.mem_cons_of_mem _ m)
    rw [List.cons_append, cutLines_cons, if_neg hc, ih ha]

namespace StandalonePluginFinder

theorem processLines_append (f : List Char → List Char) (s : StandalonePluginFinder)
    (l1 l2 : List (List Char)) :
    processLines f s (l1 ++ l2) = (processLines f s l1).bind (fun s1 => processLines f s1 l2) := by
  induction l1 generalizing s with
  | nil => rfl
  | cons x l1 ih =>
    simp only [List.cons_append, processLines]
    cases processLine f s x with
    | none => rfl
    | some s1 => exact ih s1

/-- Receiving blocks is processing, in order, all the lines read from them. -/
theorem receive_eq_processLines (f : List Char → List Char) (s : StandalonePluginFinder)
    (blocks : List (List Char)) :
    receive f s blocks = processLines f s (receivedLines blocks) := by
  induction blocks generalizing s with
  | nil => rfl
  | cons b blocks ih =>
    simp only [receive, receivedLines, processLines_append, on_processStandardOutputReady]
    cases processLines f s (readAllLines b) with
    | none => rfl
    | some s1 => exact ih s1

/-- C8 (amended). The slot keeps no partial line between calls: each call treats the
data it reads as whole lines, an unterminated last piece included. When the first of two
consecutive chunks is empty or ends with a line feed, handling the two chunks one after
the other emits the same notifications and leaves the same last-announced path as
handling the whole text in one call. -/
theorem C8_chunks_split_at_line_end (f : List Char → List Char) (first second : List Char)
    (s : StandalonePluginFinder) (h : first = [] ∨ first.getLast? = some lineFeed) :
    (on_processStandardOutputReady f first s).bind (on_processStandardOutputReady f second)
      = on_processStandardOutputReady f (first ++ second) s := by
  rcases h with h | h
  · subst h
    simp [on_processStandardOutputReady, readAllLines, cutLines, processLines]
  · obtain ⟨a, rfl⟩ := List.getLast?_eq_some_iff.mp h
    have e : a ++ [lineFeed] ++ second = a ++ lineFeed :: second := by simp
    unfold on_processStandardOutputReady
    rw [e, readAllLines_append_lineFeed a second, processLines_append]

/-- Witness of C8: a scanning line in the first chunk, a finished line in the second. -/
theorem C8_chunks_split_at_line_end_witness :
    (on_processStandardOutputReady id "JT-Scanner-Scanning: /a.dll\n".toList ⟨[], []⟩).bind
        (on_processStandardOutputReady id "JT-Scanner-Scan-Finished: /a.dll\n".toList)
      = on_processStandardOutputReady id
          ("JT-Scanner-Scanning: /a.dll\n".toList ++ "JT-Scanner-Scan-Finished: /a.dll\n".toList)
          ⟨[], []⟩ :=
  C8_chunks_split_at_line_end id _ _ _ (Or.inr (by decide))

/-- C8 as stated fails: the line `JT-Scanner-Scanning: /a/b` handled in one call
announces `/a/b`; split in the middle of the line, the first call announces `/a` and
the second call ignores the rest. -/
theorem C8_counterexample_split_inside_line :
    on_processStandardOutputReady id "JT-Scanner-Scanning: /a/b\n".toList ⟨[], []⟩
      = some ⟨"/a/b".toList, [ScanSignal.pluginScanStarted "/a/b".toList]⟩ ∧
    (on_processStandardOutputReady id "JT-Scanner-Scanning: /a".toList ⟨[], []⟩).bind
        (on_processStandardOutputReady id "/b\n".toList)
      = some ⟨"/a".toList, [ScanSignal.pluginScanStarted "/a".toList]⟩ ∧
    (on_processStandardOutputReady id "JT-Scanner-Scanning: /a".toList ⟨[], []⟩).bind
        (on_processStandardOutputReady id "/b\n".toList)
      ≠ on_processStandardOutputReady id
          ("JT-Scanner-Scanning: /a".toList ++ "/b\n".toList) ⟨[], []⟩ := by
  decide

/-! ## Results: well-formed worker lines -/

theorem dropCarriageReturn_concat (x : List Char) :
    dropCarriageReturn (x ++ [carriageReturn]) = x := by
  simp [dropCarriageReturn, List.getLast?_concat]

theorem dropCarriageReturn_of_not_mem (a p : List Char) (hp : p ≠ [])
    (h : carriageReturn ∉ p) : dropCarriageReturn (a ++ p) = a ++ p := by
  unfold dropCarriageReturn
  rw [if_neg]
  intro hl
  rw [List.getLast?_append_of_ne_nil _ hp] at hl
  exact h (List.mem_of_getLast?_eq_some hl)

theorem splitColonSpace_cons_cons (c d : Char) (rest : List Char) :
    splitColonSpace (c :: d :: rest) =
      if c = ':' ∧ d = ' ' then [] :: splitColonSpace rest
      else
        match splitColonSpace (d :: rest) with
        | [] => [[c]]
        | p :: ps => (c :: p) :: ps := by
  rw [splitColonSpace]

theorem splitColonSpace_cons_ne (c : Char) (x : List Char) (hc : c ≠ ':') :
    splitColonSpace (c :: x) =
      match splitColonSpace x with
      | [] => [[c]]
      | p :: ps => (c :: p) :: ps := by
  cases x with
  | nil => simp [splitColonSpace]
  | cons d rest =>
    rw [splitColonSpace_cons_cons, if_neg (fun h => hc h.1)]

/-- A stem without colon, followed by colon-space, is the first piece of the split. -/
theorem splitColonSpace_stem (w p : List Char) (hw : ':' ∉ w) :
    splitColonSpace (w ++ ':' :: ' ' :: p) = w :: splitColonSpace p := by
  induction w with
  | nil => simp [splitColonSpace_cons_cons]
  | cons c w ih =>
    have hc : c ≠ ':' := fun e => hw (by simp [e])
    have hw2 : ':' ∉ w := fun m => hw (List.mem_cons_of_mem _ m)
    rw [List.cons_append, splitColonSpace_cons_ne _ _ hc, ih hw2]

/-- A text without colon-space is the only piece of its split. -/
theorem splitColonSpace_plain (p : List Char) (h : containsColonSpace p = false) :
    splitColonSpace p = [p] := by
  induction p with
  | nil => rfl
  | cons c x ih =>
    cases x with
    | nil => rfl
    | cons d rest =>
      rw [containsColonSpace] at h
      simp only [Bool.or_eq_false_iff, Bool.and_eq_false_imp, decide_eq_true_eq,
        decide_eq_false_iff_not] at h
      rw [splitColonSpace_cons_cons, if_neg (fun hcd => h.1 hcd.1 hcd.2), ih h.2]

theorem startsWith_append (a x : List Char) : startsWith (a ++ x) a = true := by
  induction a with
  | nil => simp [startsWith]
  | cons c a ih =>
    simp only [startsWith] at ih
    simp [startsWith, ih]

theorem isPrefixOf_append_of_length_le (a b x : List Char) (h : a.length ≤ b.length) :
    a.isPrefixOf (b ++ x) = a.isPrefixOf b := by
  induction a generalizing b with
  | nil => simp
  | cons c a ih =>
    cases b with
    | nil => simp at h
    | cons d b =>
      have e := ih b (by simpa using h)
      show (c == d && a.isPrefixOf (b ++ x)) = (c == d && a.isPrefixOf b)
      rw [e]

theorem plainPath_iff (p : List Char) :
    plainPath p = true ↔
      p ≠ [] ∧ containsColonSpace p = false ∧ lineFeed ∉ p ∧ carriageReturn ∉ p := by
  cases p with
  | nil => simp [plainPath]
  | cons c x => simp [plainPath, and_assoc]

theorem scanningTag_stem : scanningTag = scanningTag.dropLast ++ [':'] := by decide

theorem scanningTag_not_startsWith_finished (x : List Char) :
    startsWith (finishedTag ++ x) scanningTag = false := by
  unfold startsWith
  rw [isPrefixOf_append_of_length_le _ _ _ (by decide)]
  decide

/-- What the loop body does with a well-formed scanning line. -/
theorem processLine_scanning (f : List Char → List Char) (s : StandalonePluginFinder)
    (p : List Char) (e : Bool) (hp : plainPath p = true) :
    processLine f s (WorkerLine.scanning p e).body =
      some (({ s with lastScannedPlugin := p } : StandalonePluginFinder).emit
        (ScanSignal.pluginScanStarted p)) := by
  obtain ⟨_, hsep, _, _⟩ := (plainPath_iff p).mp hp
  have hsplit : splitColonSpace (scanningTag ++ ' ' :: p) = [scanningTag.dropLast, p] := by
    have e1 : scanningTag ++ ' ' :: p = scanningTag.dropLast ++ ':' :: ' ' :: p := by
      conv_lhs => rw [scanningTag_stem]
      simp
    rw [e1, splitColonSpace_stem _ _ (by decide), splitColonSpace_plain p hsep]
  have hne : (scanningTag ++ ' ' :: p).isEmpty = false := by simp
  simp only [processLine, WorkerLine.body, hne, startsWith_append, hsplit]
  simp

/-- What the loop body does with a well-formed finished line. -/
theorem processLine_finished (f : List Char → List Char) (s : StandalonePluginFinder)
    (p : List Char) (e : Bool) (hp : plainPath p = true) :
    processLine f s (WorkerLine.finished p e).body =
      some (s.emit (ScanSignal.pluginScanFinished (f p) "VST".toList p)) := by
  obtain ⟨_, hsep, _, _⟩ := (plainPath_iff p).mp hp
  have hsplit : splitColonSpace (finishedTag ++ ':' :: ' ' :: p) = [finishedTag, p] := by
    rw [splitColonSpace_stem _ _ (by decide), splitColonSpace_plain p hsep]
  have hne : (finishedTag ++ ':' :: ' ' :: p).isEmpty = false := by simp
  simp only [processLine, WorkerLine.body, hne, startsWith_append,
    scanningTag_not_startsWith_finished, hsplit]
  simp

/-- Reading a well-formed line followed by more text yields the line without terminator. -/
theorem readAllLines_text (l : WorkerLine) (rest : List Char)
    (hp : plainPath l.path = true) :
    readAllLines (l.text ++ rest) = l.body :: readAllLines rest := by
  obtain ⟨hne, _, hlf, hcr⟩ := (plainPath_iff _).mp hp
  have hbody : lineFeed ∉ l.body ∧ dropCarriageReturn l.body = l.body := by
    cases l with
    | scanning p e =>
      constructor
      · simp only [WorkerLine.body, List.mem_append, List.mem_cons, not_or]
        exact ⟨by decide, by decide, hlf⟩
      · have e1 : scanningTag ++ ' ' :: p = (scanningTag ++ [' ']) ++ p := by simp
        simp only [WorkerLine.body]
        rw [e1]
        exact dropCarriageReturn_of_not_mem _ _ hne hcr
    | finished p e =>
      constructor
      · simp only [WorkerLine.body, List.mem_append, List.mem_cons, not_or]
        exact ⟨by decide, by decide, by decide, hlf⟩
      · have e1 : finishedTag ++ ':' :: ' ' :: p = (finishedTag ++ [':', ' ']) ++ p := by simp
        simp only [WorkerLine.body]
        rw [e1]
        exact dropCarriageReturn_of_not_mem _ _ hne hcr
  have hterm : l.terminator = [lineFeed] ∨ l.terminator = [carriageReturn, lineFeed] := by
    cases l with
    | scanning p e => cases e <;> simp [WorkerLine.terminator]
    | finished p e => cases e <;> simp [WorkerLine.terminator]
  unfold WorkerLine.text readAllLines
  rcases hterm with ht | ht
  · rw [ht]
    have e1 : l.body ++ [lineFeed] ++ rest = l.body ++ lineFeed :: rest := by simp
    rw [e1, cutLines_line _ _ hbody.1, List.map_cons, hbody.2]
  · rw [ht]
    have e1 : l.body ++ [carriageReturn, lineFeed] ++ rest
        = (l.body ++ [carriageReturn]) ++ lineFeed :: rest := by simp
    have hlf2 : lineFeed ∉ l.body ++ [carriageReturn] := by
      simp only [List.mem_append, List.mem_singleton, not_or]
      exact ⟨hbody.1, by decide⟩
    rw [e1, cutLines_line _ _ hlf2, List.map_cons, dropCarriageReturn_concat]

theorem readAllLines_blockText (ls : List WorkerLine)
    (h : ∀ l ∈ ls, plainPath l.path = true) :
    readAllLines (blockText ls) = ls.map WorkerLine.body := by
  induction ls with
  | nil => rfl
  | cons l ls ih =>
    rw [blockText, readAllLines_text l _ (h l (List.mem_cons_self _ _)),
      ih (fun l2 hl2 => h l2 (List.mem_cons_of_mem _ hl2)), List.map_cons]

theorem receivedLines_blockText (blocks : List (List WorkerLine))
    (h : ∀ b ∈ blocks, ∀ l ∈ b, plainPath l.path = true) :
    receivedLines (blocks.map blockText) = blocks.flatten.map WorkerLine.body := by
  induction blocks with
  | nil => rfl
  | cons b blocks ih =>
    rw [List.map_cons, receivedLines, readAllLines_blockText b (h b (List.mem_cons_self _ _)),
      ih (fun b2 hb2 => h b2 (List.mem_cons_of_mem _ hb2)), List.flatten_cons, List.map_append]

/-! ## Results: crash attribution -/

theorem badPlugins_emit_started (s : StandalonePluginFinder) (q p : List Char) :
    (({ s with lastScannedPlugin := q } : StandalonePluginFinder).emit
      (ScanSignal.pluginScanStarted p)).badPlugins = s.badPlugins := by
  simp [badPlugins, emit, List.filterMap_append]

theorem badPlugins_emit_finished (s : StandalonePluginFinder) (n g p : List Char) :
    (s.emit (ScanSignal.pluginScanFinished n g p)).badPlugins = s.badPlugins := by
  simp [badPlugins, emit, List.filterMap_append]

/-- Processing well-formed lines never faults, reports no bad plugin, and leaves as
last-announced path the path of the last scanning line (the old one if there is none). -/
theorem processLines_workerLines (f : List Char → List Char) (ls : List WorkerLine)
    (s : StandalonePluginFinder) (h : ∀ l ∈ ls, plainPath l.path = true) :
    ∃ s2, processLines f s (ls.map WorkerLine.body) = some s2 ∧
      s2.lastScannedPlugin = (lastScanning ls).getD s.lastScannedPlugin ∧
      s2.badPlugins = s.badPlugins := by
  induction ls using List.reverseRecOn with
  | nil => exact ⟨s, rfl, rfl, rfl⟩
  | append_singleton ls l ih =>
    obtain ⟨s1, h1, h2, h3⟩ := ih (fun l2 hl2 => h l2 (List.mem_append_left _ hl2))
    have hl : plainPath l.path = true := h l (by simp)
    rw [List.map_append, processLines_append, h1]
    simp only [Option.bind, List.map_cons, List.map_nil, processLines]
    cases l with
    | scanning p e =>
      rw [processLine_scanning f s1 p e hl]
      refine ⟨_, rfl, ?_, ?_⟩
      · simp [lastScanning, List.filterMap_append, scanningPath, emit]
      · rw [badPlugins_emit_started, h3]
    | finished p e =>
      rw [processLine_finished f s1 p e hl]
      refine ⟨_, rfl, ?_, ?_⟩
      · simp only [lastScanning, List.filterMap_append, List.filterMap_cons, scanningPath,
          List.filterMap_nil, List.append_nil, emit]
        exact h2
      · rw [badPlugins_emit_finished, h3]

/-- An abnormal exit with a non-empty last-announced path reports that path. -/
theorem on_processFinished_crash (s : StandalonePluginFinder) (hne : s.lastScannedPlugin ≠ []) :
    on_processFinished ExitStatus.CrashExit s =
      { lastScannedPlugin := [],
        emitted := s.emitted ++ [ScanSignal.scanFinished false,
          ScanSignal.badPluginDetected s.lastScannedPlugin] } := by
  obtain ⟨last, em⟩ := s
  cases last with
  | nil => exact absurd rfl hne
  | cons c x => simp [on_processFinished, handleProcessError, emit]

/-- C6. For worker output made of complete lines `JT-Scanner-Scanning: P` and
`JT-Scanner-Scan-Finished: P` (paths non-empty, without colon-space and line terminator),
delivered in any number of blocks and containing at least one scanning line, an abnormal
exit reports exactly one bad plugin: the path of the last scanning line. A finished
line never changes the recorded last-announced path. -/
theorem C6_crash_blames_last_scanning_line (f : List Char → List Char)
    (blocks : List (List WorkerLine)) (s0 : StandalonePluginFinder) (P : List Char)
    (hwf : ∀ b ∈ blocks, ∀ l ∈ b, plainPath l.path = true)
    (hlast : lastScanning blocks.flatten = some P) :
    (∃ s, receive f s0 (blocks.map blockText) = some s ∧
      s.lastScannedPlugin = P ∧
      (on_processFinished ExitStatus.CrashExit s).emitted =
        s.emitted ++ [ScanSignal.scanFinished false, ScanSignal.badPluginDetected P] ∧
      (on_processFinished ExitStatus.CrashExit s).badPlugins = s0.badPlugins ++ [P]) ∧
    (∀ (s1 : StandalonePluginFinder) (Q : List Char) (e : Bool), plainPath Q = true →
      ∃ s2, on_processStandardOutputReady f (WorkerLine.finished Q e).text s1 = some s2 ∧
        s2.lastScannedPlugin = s1.lastScannedPlugin) := by
  constructor
  · have hall : ∀ l ∈ blocks.flatten, plainPath l.path = true := by
      intro l hl
      obtain ⟨b, hb, hlb⟩ := List.mem_flatten.mp hl
      exact hwf b hb l hlb
    obtain ⟨s, h1, h2, h3⟩ := processLines_workerLines f blocks.flatten s0 hall
    rw [hlast] at h2
    simp only [Option.getD_some] at h2
    have hP : P ≠ [] := by
      have hm := List.mem_of_getLast?_eq_some hlast
      obtain ⟨l, hl, hlp⟩ := List.mem_filterMap.mp hm
      have hpl := hall l hl
      cases l with
      | scanning p e =>
        simp only [scanningPath, Option.some.injEq] at hlp
        subst hlp
        exact ((plainPath_iff _).mp hpl).1
      | finished p e => simp [scanningPath] at hlp
    have hcrash := on_processFinished_crash s (by rw [h2]; exact hP)
    rw [h2] at hcrash
    refine ⟨s, ?_, h2, ?_, ?_⟩
    · rw [receive_eq_processLines, receivedLines_blockText blocks hwf]
      exact h1
    · rw [hcrash]
    · rw [hcrash, ← h3]
      simp [badPlugins, List.filterMap_append]
  · intro s1 Q e hQ
    have hr := readAllLines_text (WorkerLine.finished Q e) [] hQ
    rw [List.append_nil] at hr
    refine ⟨s1.emit (ScanSignal.pluginScanFinished (f Q) "VST".toList Q), ?_, rfl⟩
    unfold on_processStandardOutputReady
    rw [hr]
    have hrl : readAllLines [] = [] := rfl
    rw [hrl]
    simp only [processLines]
    rw [processLine_finished f s1 Q e hQ]

/-- Witness of C6: scanning A, finished A, scanning B in two blocks, then a crash,
reports B. -/
theorem C6_crash_blames_last_scanning_line_witness :
    ∃ s, receive id ⟨[], []⟩
        ([[WorkerLine.scanning "A".toList false, WorkerLine.finished "A".toList false],
          [WorkerLine.scanning "B".toList true]].map blockText) = some s ∧
      s.lastScannedPlugin = "B".toList ∧
      (on_processFinished ExitStatus.CrashExit s).emitted =
        s.emitted ++ [ScanSignal.scanFinished false, ScanSignal.badPluginDetected "B".toList] ∧
      (on_processFinished ExitStatus.CrashExit s).badPlugins = [] ++ ["B".toList] :=
  (C6_crash_blames_last_scanning_line id
    [[WorkerLine.scanning "A".toList false, WorkerLine.finished "A".toList false],
      [WorkerLine.scanning "B".toList true]] ⟨[], []⟩ "B".toList (by decide) (by decide)).1

/-- The protocol text of a block of well-formed lines, spelled out. -/
theorem blockText_example :
    blockText [WorkerLine.scanning "A".toList false, WorkerLine.finished "A".toList false,
        WorkerLine.scanning "B".toList true]
      = "JT-Scanner-Scanning: A\nJT-Scanner-Scan-Finished: A\nJT-Scanner-Scanning: B\r\n".toList := by
  decide

theorem splitColonSpace_ne_nil (x : List Char) : splitColonSpace x ≠ [] := by
  induction x with
  | nil => simp [splitColonSpace]
  | cons c x ih =>
    cases x with
    | nil => simp [splitColonSpace]
    | cons d rest =>
      rw [splitColonSpace_cons_cons]
      split_ifs
      · simp
      · split <;> simp

/-- A text with a colon-space has a second piece in its split. -/
theorem splitColonSpace_second (x : List Char) (h : containsColonSpace x = true) :
    ∃ p, (splitColonSpace x)[1]? = some p := by
  induction x with
  | nil => simp [containsColonSpace] at h
  | cons c x ih =>
    cases x with
    | nil => simp [containsColonSpace] at h
    | cons d rest =>
      rw [splitColonSpace_cons_cons]
      by_cases hcd : c = ':' ∧ d = ' '
      · rw [if_pos hcd]
        cases hs : splitColonSpace rest with
        | nil => exact absurd hs (splitColonSpace_ne_nil rest)
        | cons q qs => exact ⟨q, by simp⟩
      · rw [if_neg hcd]
        rw [containsColonSpace] at h
        have h2 : containsColonSpace (d :: rest) = true := by
          simp only [Bool.or_eq_true, Bool.and_eq_true, decide_eq_true_eq] at h
          rcases h with h | h
          · exact absurd h hcd
          · exact h
        obtain ⟨p, hp⟩ := ih h2
        cases hs : splitColonSpace (d :: rest) with
        | nil => exact absurd hs (splitColonSpace_ne_nil _)
        | cons q qs =>
          rw [hs] at hp
          exact ⟨p, by simpa using hp⟩

theorem lastAnnounced_concat_scanning (previous : List Char) (lines : List (List Char))
    (x : List Char) (h : startsWith x scanningTag = true) :
    lastAnnounced previous (lines ++ [x]) = (splitColonSpace x)[1]?.getD previous := by
  simp [lastAnnounced, List.filter_append, List.filter_cons, h, List.getLast?_concat]

theorem lastAnnounced_concat_other (previous : List Char) (lines : List (List Char))
    (x : List Char) (h : startsWith x scanningTag = false) :
    lastAnnounced previous (lines ++ [x]) = lastAnnounced previous lines := by
  simp [lastAnnounced, List.filter_append, List.filter_cons, h]

/-- Processing lines in which every tagged line has a colon-space never faults, reports
no bad plugin, and records the path of the last line that starts with the scanning tag. -/
theorem processLines_separated (f : List Char → List Char) (lines : List (List Char))
    (s : StandalonePluginFinder)
    (hsep : ∀ line ∈ lines, tagged line = true → containsColonSpace line = true) :
    ∃ s2, processLines f s lines = some s2 ∧
      s2.lastScannedPlugin = lastAnnounced s.lastScannedPlugin lines ∧
      s2.badPlugins = s.badPlugins := by
  induction lines using List.reverseRecOn with
  | nil => exact ⟨s, rfl, rfl, rfl⟩
  | append_singleton lines x ih =>
    obtain ⟨s1, h1, h2, h3⟩ := ih (fun l hl => hsep l (List.mem_append_left _ hl))
    have hx := hsep x (by simp)
    rw [processLines_append, h1]
    simp only [Option.bind, processLines]
    by_cases hsc : startsWith x scanningTag = true
    · have htag : tagged x = true := by simp [tagged, hsc]
      obtain ⟨p, hp⟩ := splitColonSpace_second x (hx htag)
      have hne : x.isEmpty = false := by
        cases x with
        | nil => exact absurd hsc (by decide)
        | cons c x => rfl
      refine ⟨({ s1 with lastScannedPlugin := p } : StandalonePluginFinder).emit
        (ScanSignal.pluginScanStarted p), ?_, ?_, ?_⟩
      · simp [processLine, hne, hsc, hp]
      · rw [lastAnnounced_concat_scanning _ _ _ hsc, hp]
        rfl
      · rw [badPlugins_emit_started, h3]
    · have hsc2 : startsWith x scanningTag = false := by simpa using hsc
      rw [lastAnnounced_concat_other _ _ _ hsc2]
      by_cases hfi : startsWith x finishedTag = true
      · have htag : tagged x = true := by simp [tagged, hfi]
        obtain ⟨p, hp⟩ := splitColonSpace_second x (hx htag)
        have hne : x.isEmpty = false := by
          cases x with
          | nil => exact absurd hfi (by decide)
          | cons c x => rfl
        refine ⟨s1.emit (ScanSignal.pluginScanFinished (f p) "VST".toList p), ?_, h2, ?_⟩
        · simp [processLine, hne, hsc2, hfi, hp]
        · rw [badPlugins_emit_finished, h3]
      · have hfi2 : startsWith x finishedTag = false := by simpa using hfi
        refine ⟨s1, ?_, h2, h3⟩
        cases hxe : x.isEmpty <;> simp [processLine, hxe, hsc2, hfi2]

/-- Explicit form of `on_processFinished`. -/
theorem on_processFinished_eq (status : ExitStatus) (s : StandalonePluginFinder) :
    on_processFinished status s =
      { lastScannedPlugin := [],
        emitted := s.emitted ++
          ScanSignal.scanFinished (decide (status = ExitStatus.NormalExit)) ::
            (if status = ExitStatus.CrashExit ∧ s.lastScannedPlugin ≠ [] then
              [ScanSignal.badPluginDetected s.lastScannedPlugin] else []) } := by
  obtain ⟨last, em⟩ := s
  cases status <;> cases last <;> simp [on_processFinished, handleProcessError, emit]

/-- C7 (amended). Starting from an empty last-announced path, for worker output (arriving
in any blocks) in which every line that starts with one of the two tags contains a
colon-space, and for every exit status: the output is handled without fault, and on exit
a bad plugin is reported exactly when the exit is abnormal and the path carried by the
last received line starting with `JT-Scanner-Scanning:` is non-empty; that path is the
one reported. Output without such a line reports no bad plugin on any exit. A normal
exit reports no bad plugin and signals success. The last-announced path is empty
afterwards. -/
theorem C7_bad_plugin_reported_iff (f : List Char → List Char) (blocks : List (List Char))
    (status : ExitStatus) (s0 : StandalonePluginFinder) (h0 : s0.lastScannedPlugin = [])
    (hsep : ∀ line ∈ receivedLines blocks, tagged line = true → containsColonSpace line = true) :
    ∃ s, receive f s0 blocks = some s ∧
      (on_processFinished status s).emitted = s.emitted ++
        ScanSignal.scanFinished (decide (status = ExitStatus.NormalExit)) ::
          (if status = ExitStatus.CrashExit ∧ lastAnnounced [] (receivedLines blocks) ≠ [] then
            [ScanSignal.badPluginDetected (lastAnnounced [] (receivedLines blocks))] else []) ∧
      (on_processFinished status s).badPlugins = s0.badPlugins ++
          (if status = ExitStatus.CrashExit ∧ lastAnnounced [] (receivedLines blocks) ≠ [] then
            [lastAnnounced [] (receivedLines blocks)] else []) ∧
      ((∀ line ∈ receivedLines blocks, startsWith line scanningTag = false) →
        (on_processFinished status s).badPlugins = s0.badPlugins) ∧
      (status = ExitStatus.NormalExit →
        (on_processFinished status s).badPlugins = s0.badPlugins ∧
        (on_processFinished status s).emitted = s.emitted ++ [ScanSignal.scanFinished true]) ∧
      (on_processFinished status s).lastScannedPlugin = [] := by
  obtain ⟨s, h1, h2, h3⟩ := processLines_separated f (receivedLines blocks) s0 hsep
  rw [h0] at h2
  have hfin := on_processFinished_eq status s
  rw [h2] at hfin
  have hbad : (on_processFinished status s).badPlugins = s0.badPlugins ++
      (if status = ExitStatus.CrashExit ∧ lastAnnounced [] (receivedLines blocks) ≠ [] then
        [lastAnnounced [] (receivedLines blocks)] else []) := by
    rw [hfin, ← h3]
    split_ifs <;> simp [badPlugins, List.filterMap_append]
  refine ⟨s, ?_, ?_, hbad, ?_, ?_, ?_⟩
  · rw [receive_eq_processLines]; exact h1
  · rw [hfin]
  · intro hnone
    have hla : lastAnnounced [] (receivedLines blocks) = [] := by
      have hfil : (receivedLines blocks).filter (fun line => startsWith line scanningTag) = [] := by
        rw [List.filter_eq_nil_iff]
        intro line hl
        simp [hnone line hl]
      simp [lastAnnounced, hfil]
    rw [hbad, hla]
    simp
  · intro hnormal
    subst hnormal
    constructor
    · rw [hbad]; simp
    · rw [hfin]; simp
  · rw [hfin]

/-- Witness of C7: only a finished line was received, then the worker crashed. -/
theorem C7_bad_plugin_reported_iff_witness :
    ∃ s, receive id ⟨[], []⟩ ["JT-Scanner-Scan-Finished: /a.dll\n".toList] = some s ∧
      (on_processFinished ExitStatus.CrashExit s).badPlugins = [] := by
  obtain ⟨s, h1, _, _, h2, _⟩ := C7_bad_plugin_reported_iff id
    ["JT-Scanner-Scan-Finished: /a.dll\n".toList] ExitStatus.CrashExit ⟨[], []⟩ rfl (by decide)
  exact ⟨s, h1, h2 (by decide)⟩

/-- C7 as stated fails: a scanning line for `/a.dll` was received and the exit is
abnormal, yet no bad plugin is reported, because a later scanning line carried an
empty path. -/
theorem C7_counterexample_empty_path :
    "JT-Scanner-Scanning: /a.dll".toList ∈
        receivedLines ["JT-Scanner-Scanning: /a.dll\nJT-Scanner-Scanning: \n".toList] ∧
    (receive id ⟨[], []⟩ ["JT-Scanner-Scanning: /a.dll\nJT-Scanner-Scanning: \n".toList]).map
        (fun s => (on_processFinished ExitStatus.CrashExit s).emitted)
      = some [ScanSignal.pluginScanStarted "/a.dll".toList, ScanSignal.pluginScanStarted [],
          ScanSignal.scanFinished false] ∧
    (receive id ⟨[], []⟩ ["JT-Scanner-Scanning: /a.dll\nJT-Scanner-Scanning: \n".toList]).map
        (fun s => (on_processFinished ExitStatus.CrashExit s).badPlugins) = some [] := by
  decide

/-! ## Results: lines outside the protocol -/

/-- A line that starts with neither tag is ignored. -/
theorem processLine_untagged (f : List Char → List Char) (s : StandalonePluginFinder)
    (line : List Char) (h : tagged line = false) : processLine f s line = some s := by
  simp only [tagged, Bool.or_eq_false_iff] at h
  cases hl : line.isEmpty <;> simp [processLine, hl, h.1, h.2]

/-- C9 fails on the code. A line that starts with `JT-Scanner-Scanning:` but has no
colon-space, and the bare line `JT-Scanner-Scan-Finished`, make `split(": ").at(1)` read
past the end of a one-element list; a line `JT-Scanner-Scan-Finished` followed by other
text and a colon-space is taken for a finished line and emits a plugin-found
notification. -/
theorem C9_malformed_line_not_ignored :
    splitColonSpace "JT-Scanner-Scanning:/x.dll".toList = ["JT-Scanner-Scanning:/x.dll".toList] ∧
    on_processStandardOutputReady id "JT-Scanner-Scanning:/x.dll\n".toList ⟨"/old".toList, []⟩
      = none ∧
    on_processStandardOutputReady id "JT-Scanner-Scan-Finished\n".toList ⟨"/old".toList, []⟩
      = none ∧
    on_processStandardOutputReady id "JT-Scanner-Scan-Finished soon: /x.dll\n".toList
        ⟨"/old".toList, []⟩
      = some ⟨"/old".toList,
          [ScanSignal.pluginScanFinished "/x.dll".toList "VST".toList "/x.dll".toList]⟩ := by
  decide

end StandalonePluginFinder

/-! ## Results: encoder changes during reconciliation -/

namespace StandaloneMainController

theorem Touches.playingInNinjamRoom {l : List Nat} {s s2 : StandaloneMainController}
    (h : Touches l s s2) : s2.playingInNinjamRoom = s.playingInNinjamRoom := by
  obtain ⟨tr, es, rfl, _, _, _⟩ := h; rfl

theorem Touches.ninjamController {l : List Nat} {s s2 : StandaloneMainController}
    (h : Touches l s s2) : s2.ninjamController = s.ninjamController := by
  obtain ⟨tr, es, rfl, _, _, _⟩ := h; rfl

theorem Touches.intervalsToUpload {l : List Nat} {s s2 : StandaloneMainController}
    (h : Touches l s s2) : s2.intervalsToUpload = s.intervalsToUpload := by
  obtain ⟨tr, es, rfl, _, _, _⟩ := h; rfl

theorem Touches.encoderChangesFor {l : List Nat} {s s2 : StandaloneMainController}
    (h : Touches l s s2) {i : Nat} (hi : i ∉ l) :
    s2.encoderChangesFor i = s.encoderChangesFor i := by
  unfold StandaloneMainController.encoderChangesFor
  rw [h.effectsFor hi]

/-- The encoder changes logged for a track by `setInputTrackToMono`: one while playing in
a ninjam room with a ninjam controller, none otherwise. -/
theorem setInputTrackToMono_encoderChanges (s : StandaloneMainController) (i : Nat) (idx : Int)
    (t : LocalInputAudioNode) (h : s.getInputTrack i = some t) :
    (s.setInputTrackToMono i idx).encoderChangesFor i = s.encoderChangesFor i ++
      (if s.playingInNinjamRoom && s.ninjamController then
        [Effect.scheduleEncoderChangeForChannel i t.groupChannelIndex] else []) := by
  unfold encoderChangesFor
  rw [setInputTrackToMono_eq s i idx t h, effectsFor_append, List.filter_append]
  congr 1
  cases s.window <;> cases s.playingInNinjamRoom <;> cases s.ninjamController <;>
    simp [Effect.track, List.filter]

/-- The encoder changes logged for a track by `setInputTrackToStereo`: one while playing
in a ninjam room with a ninjam controller, none otherwise. -/
theorem setInputTrackToStereo_encoderChanges (s : StandaloneMainController) (i : Nat)
    (idx : Int) (t : LocalInputAudioNode) (h : s.getInputTrack i = some t) :
    (s.setInputTrackToStereo i idx).encoderChangesFor i = s.encoderChangesFor i ++
      (if s.playingInNinjamRoom && s.ninjamController then
        [Effect.scheduleEncoderChangeForChannel i t.groupChannelIndex] else []) := by
  unfold encoderChangesFor
  rw [setInputTrackToStereo_eq s i idx t h, effectsFor_append, List.filter_append]
  congr 1
  cases s.window <;> cases s.playingInNinjamRoom <;> cases s.ninjamController <;>
    simp [Effect.track, List.filter]

/-- Loop body on an audio track that leaves a global range of at least one channel and
has no more channels than it: only the second check fires, and it logs one encoder
change for the track's group channel while playing with a ninjam controller. -/
theorem updateInputTrackRange_encoderChanges (s : StandaloneMainController) (i : Nat)
    (t : LocalInputAudioNode) (r : ChannelRange) (h : s.getInputTrack i = some t)
    (hr : t.route = InputTrackRoute.Audio r)
    (hout : r.getFirstChannel < s.selectedInputs.getFirstChannel
      ∨ r.getLastChannel > s.selectedInputs.getLastChannel)
    (hg : 1 ≤ s.selectedInputs.getChannels)
    (hle : r.getChannels ≤ s.selectedInputs.getChannels)
    (hp : s.playingInNinjamRoom = true) (hn : s.ninjamController = true) :
    (updateInputTrackRange s.selectedInputs s i).encoderChangesFor i =
      s.encoderChangesFor i ++
        [Effect.scheduleEncoderChangeForChannel i t.getGroupChannelIndex] := by
  rw [updateInputTrackRange_audio _ s i t r h hr]
  have c1 : ¬ s.selectedInputs.getChannels < r.getChannels := not_lt.mpr hle
  have h1 : (s.putInputTrack i
      (t.setGlobalFirstInputIndex s.selectedInputs.getFirstChannel)).getInputTrack i =
      some (t.setGlobalFirstInputIndex s.selectedInputs.getFirstChannel) :=
    getInputTrack_putInputTrack h
  have he1 : (s.putInputTrack i
      (t.setGlobalFirstInputIndex s.selectedInputs.getFirstChannel)).encoderChangesFor i =
      s.encoderChangesFor i := rfl
  have hp1 : (s.putInputTrack i
      (t.setGlobalFirstInputIndex s.selectedInputs.getFirstChannel)).playingInNinjamRoom
      = true := hp
  have hn1 : (s.putInputTrack i
      (t.setGlobalFirstInputIndex s.selectedInputs.getFirstChannel)).ninjamController
      = true := hn
  simp only [if_neg c1, if_pos hout]
  by_cases hm : s.selectedInputs.isMono = true
  · rw [if_pos hm, setInputTrackToMono_encoderChanges _ i _ _ h1, he1, hp1, hn1]
    rfl
  · have hge : s.selectedInputs.getChannels ≥ 2 := by
      simp only [ChannelRange.isMono, decide_eq_true_eq] at hm
      simp only [ChannelRange.getChannels] at hg ⊢
      omega
    rw [if_neg hm, if_pos hge, setInputTrackToStereo_encoderChanges _ i _ _ h1, he1, hp1, hn1]
    rfl

/-- C11 (amended). While playing in a ninjam room with a ninjam controller, for a global
input range of at least one channel and an audio track whose range is not inside it and
has no more channels than it, one run of `updateInputTracksRange` logs on behalf of the
track exactly one encoder change, for the track's group channel. -/
theorem C11_encoder_change_once (s : StandaloneMainController) (i : Nat)
    (t : LocalInputAudioNode) (r : ChannelRange) (h : s.getInputTrack i = some t)
    (hr : t.route = InputTrackRoute.Audio r)
    (hout : r.getFirstChannel < s.selectedInputs.getFirstChannel
      ∨ r.getLastChannel > s.selectedInputs.getLastChannel)
    (hg : 1 ≤ s.selectedInputs.getChannels)
    (hle : r.getChannels ≤ s.selectedInputs.getChannels)
    (hp : s.playingInNinjamRoom = true) (hn : s.ninjamController = true) :
    s.updateInputTracksRange.encoderChangesFor i =
      s.encoderChangesFor i ++
        [Effect.scheduleEncoderChangeForChannel i t.getGroupChannelIndex] := by
  obtain ⟨s1, l1, l2, hi1, hi2, T1, T2⟩ :=
    updateInputTracksRange_at s i (lt_length_of_getInputTrack h)
  have ht1 : s1.getInputTrack i = some t := (T1.getInputTrack hi1).trans h
  have hg1 : s1.selectedInputs = s.selectedInputs := T1.selectedInputs
  have hb := updateInputTrackRange_encoderChanges s1 i t r ht1 hr
    (by rw [hg1]; exact hout) (by rw [hg1]; exact hg) (by rw [hg1]; exact hle)
    (T1.playingInNinjamRoom.trans hp) (T1.ninjamController.trans hn)
  rw [hg1, T1.encoderChangesFor hi1] at hb
  rw [T2.encoderChangesFor hi2]
  exact hb

/-- Witness of C11: global range `{0,2}`, track `Audio{1,2}` on group channel 3. -/
theorem C11_encoder_change_once_witness :
    (sampleController [⟨InputTrackRoute.Audio ⟨1, 2⟩, 3, 0⟩]
        ⟨0, 2⟩).updateInputTracksRange.encoderChangesFor 0
      = [] ++ [Effect.scheduleEncoderChangeForChannel 0 3] :=
  C11_encoder_change_once (sampleController [⟨InputTrackRoute.Audio ⟨1, 2⟩, 3, 0⟩] ⟨0, 2⟩) 0
    ⟨InputTrackRoute.Audio ⟨1, 2⟩, 3, 0⟩ ⟨1, 2⟩ rfl rfl (by decide) (by decide) (by decide)
    rfl rfl

/-- C11 as stated fails. With the one-channel global range `{0,1}` the stereo track
`Audio{0,2}` is not inside the range; both checks of the loop body call
`setInputTrackToMono` and the encoder change is logged twice. With the empty global
range `{0,0}` the track `Audio{0,1}` is set to no input without a pending interval and
no encoder change is logged. -/
theorem C11_counterexample_twice_and_never :
    (sampleController [⟨InputTrackRoute.Audio ⟨0, 2⟩, 3, 0⟩] ⟨0, 1⟩).playingInNinjamRoom = true ∧
    (sampleController [⟨InputTrackRoute.Audio ⟨0, 2⟩, 3, 0⟩] ⟨0, 1⟩).ninjamController = true ∧
    (ChannelRange.mk 0 2).getLastChannel > (ChannelRange.mk 0 1).getLastChannel ∧
    (sampleController [⟨InputTrackRoute.Audio ⟨0, 2⟩, 3, 0⟩]
        ⟨0, 1⟩).updateInputTracksRange.effects
      = [Effect.refreshTrackInputSelection 0, Effect.scheduleEncoderChangeForChannel 0 3,
          Effect.refreshTrackInputSelection 0, Effect.scheduleEncoderChangeForChannel 0 3] ∧
    ((sampleController [⟨InputTrackRoute.Audio ⟨0, 2⟩, 3, 0⟩]
        ⟨0, 1⟩).updateInputTracksRange.encoderChangesFor 0).length = 2 ∧
    (ChannelRange.mk 0 1).getLastChannel > (ChannelRange.mk 0 0).getLastChannel ∧
    (sampleController [⟨InputTrackRoute.Audio ⟨0, 1⟩, 3, 0⟩]
        ⟨0, 0⟩).updateInputTracksRange.effects = [Effect.refreshTrackInputSelection 0] ∧
    ((sampleController [⟨InputTrackRoute.Audio ⟨0, 1⟩, 3, 0⟩]
        ⟨0, 0⟩).updateInputTracksRange.encoderChangesFor 0).length = 0 := by
  decide

/-! ## Results: registering a found plugin -/

/-- C12 (amended). The slot `on_VSTPluginFounded` always appends one descriptor
`(name, group, path)` at the end of the catalog, whether or not a descriptor with that
path is already there, and leaves the earlier descriptors as they are; handling the same
path twice adds two descriptors with that path. -/
theorem C12_plugin_found_always_appends (s : PluginCatalog)
    (name group name2 group2 path : List Char) :
    (on_VSTPluginFounded s name group path).pluginsDescriptors =
      s.pluginsDescriptors ++ [PluginDescriptor.mk name group path] ∧
    (on_VSTPluginFounded (on_VSTPluginFounded s name group path) name2 group2
        path).pluginsDescriptors =
      s.pluginsDescriptors ++
        [PluginDescriptor.mk name group path, PluginDescriptor.mk name2 group2 path] ∧
    (descriptorsWithPath (on_VSTPluginFounded (on_VSTPluginFounded s name group path)
        name2 group2 path) path).length = (descriptorsWithPath s path).length + 2 := by
  refine ⟨rfl, ?_, ?_⟩
  · simp [on_VSTPluginFounded]
  · simp [on_VSTPluginFounded, descriptorsWithPath, List.filter_append, List.filter_cons]

/-- C12 as stated fails: handling the same plugin-found notification twice on an empty
catalog leaves two descriptors with that path, not one. -/
theorem C12_counterexample_same_path_twice :
    (on_VSTPluginFounded
        (on_VSTPluginFounded ⟨[], []⟩ "Delay".toList "VST".toList "/vst/delay.dll".toList)
        "Delay".toList "VST".toList "/vst/delay.dll".toList).pluginsDescriptors
      = [PluginDescriptor.mk "Delay".toList "VST".toList "/vst/delay.dll".toList,
          PluginDescriptor.mk "Delay".toList "VST".toList "/vst/delay.dll".toList] ∧
    (descriptorsWithPath
        (on_VSTPluginFounded
          (on_VSTPluginFounded ⟨[], []⟩ "Delay".toList "VST".toList "/vst/delay.dll".toList)
          "Delay".toList "VST".toList "/vst/delay.dll".toList)
        "/vst/delay.dll".toList).length ≠ 1 := by
  decide

/-! ## Results: range left by the audio mutators -/

/-- The mono mutator leaves a range of one channel inside a global range that has at
least one channel, for every requested index. -/
theorem setInputTrackToMono_inside (s : StandaloneMainController) (i : Nat) (idx : Int)
    (t : LocalInputAudioNode) (h : s.getInputTrack i = some t)
    (hg : 1 ≤ s.selectedInputs.getChannels) :
    ∃ f, (s.setInputTrackToMono i idx).routeAt i = some (InputTrackRoute.Audio ⟨f, 1⟩) ∧
      s.selectedInputs.getFirstChannel ≤ f ∧
      (ChannelRange.mk f 1).getLastChannel ≤ s.selectedInputs.getLastChannel := by
  refine ⟨if s.inputIndexIsValid idx then idx else s.selectedInputs.getFirstChannel, ?_, ?_⟩
  · rw [setInputTrackToMono_eq s i idx t h, routeAt]
    have hget : ∀ (t2 : LocalInputAudioNode) (es : List Effect),
        ({ s with inputTracks := s.inputTracks.set i t2, effects := es } :
          StandaloneMainController).getInputTrack i = some t2 :=
      fun t2 es => getElem?_set_of_some h
    rw [hget]
    rfl
  · cases hv : s.inputIndexIsValid idx
    · simp only [Bool.false_eq_true, if_false, ChannelRange.getFirstChannel,
        ChannelRange.getLastChannel, ChannelRange.getChannels] at hg ⊢
      constructor <;> omega
    · simp only [if_true]
      simp only [inputIndexIsValid, Bool.and_eq_true, decide_eq_true_eq,
        ChannelRange.getFirstChannel, ChannelRange.getLastChannel] at hv
      simp only [ChannelRange.getFirstChannel, ChannelRange.getLastChannel]
      constructor <;> omega

/-- The stereo mutator leaves a range of two channels whose first channel is inside a
global range that has at least one channel; nothing is checked for the second channel. -/
theorem setInputTrackToStereo_first_inside (s : StandaloneMainController) (i : Nat)
    (idx : Int) (t : LocalInputAudioNode) (h : s.getInputTrack i = some t)
    (hg : 1 ≤ s.selectedInputs.getChannels) :
    ∃ f, (s.setInputTrackToStereo i idx).routeAt i = some (InputTrackRoute.Audio ⟨f, 2⟩) ∧
      s.selectedInputs.getFirstChannel ≤ f ∧ f ≤ s.selectedInputs.getLastChannel := by
  refine ⟨if s.inputIndexIsValid idx then idx else s.selectedInputs.getFirstChannel, ?_, ?_⟩
  · rw [setInputTrackToStereo_eq s i idx t h, routeAt]
    have hget : ∀ (t2 : LocalInputAudioNode) (es : List Effect),
        ({ s with inputTracks := s.inputTracks.set i t2, effects := es } :
          StandaloneMainController).getInputTrack i = some t2 :=
      fun t2 es => getElem?_set_of_some h
    rw [hget]
    rfl
  · cases hv : s.inputIndexIsValid idx
    · simp only [Bool.false_eq_true, if_false, ChannelRange.getFirstChannel,
        ChannelRange.getLastChannel, ChannelRange.getChannels] at hg ⊢
      constructor <;> omega
    · simp only [if_true]
      simp only [inputIndexIsValid, Bool.and_eq_true, decide_eq_true_eq,
        ChannelRange.getFirstChannel, ChannelRange.getLastChannel] at hv
      simp only [ChannelRange.getFirstChannel, ChannelRange.getLastChannel]
      constructor <;> omega

/-- C13 fails on the code. With the global range `{0,2}` (last channel 1) the index 1
passes `inputIndexIsValid`, so `setInputTrackToStereo(0, 1)` leaves the route
`Audio{1,2}`, whose last channel 2 lies outside the global range. -/
theorem C13_stereo_at_last_channel_leaves_range :
    (sampleController [⟨InputTrackRoute.Audio ⟨0, 1⟩, 0, 0⟩] ⟨0, 2⟩).inputIndexIsValid 1 = true ∧
    ((sampleController [⟨InputTrackRoute.Audio ⟨0, 1⟩, 0, 0⟩] ⟨0, 2⟩).setInputTrackToStereo 0
        1).routeAt 0 = some (InputTrackRoute.Audio ⟨1, 2⟩) ∧
    ¬ ((1 : Int) + 1 ≤ (ChannelRange.mk 0 2).getLastChannel) ∧
    validRoute ⟨0, 2⟩ sampleMidiDriver (InputTrackRoute.Audio ⟨1, 2⟩) = false := by
  decide

end StandaloneMainController

end JamTaba
